import Mathlib

/-!
Verification of the golf swing analyzer core against its specification.

The definitions below are a shallow embedding of the relevant source files:

  backend/app/pipeline/comparison_engine.py
  backend/app/pipeline/feedback_engine.py
  backend/app/pipeline/phase_detector.py
  scripts/detect_phases.py
  scripts/calculate_angles.py

Real-valued program quantities are embedded as rationals (exact arithmetic
standing in for IEEE floats; every branch that the theorems below depend on
is taken with a wide numeric margin, and the angle primitives that genuinely
need square roots and arccosine are embedded over the reals).  Dictionaries
keyed by strings are embedded as association lists in insertion order, which
is exactly the iteration order of dict in the source language; dict values
that can be absent are Option.
-/

unseal Rat.add Rat.sub Rat.mul Rat.inv Rat.ofScientific

set_option maxRecDepth 100000

namespace Golf

/-! ## Basic helpers shared by the embedding -/

/-- First-match lookup in an association list: the semantics of indexing or
of the get method on a dict whose keys are unique. -/
def alookup (k : String) (m : List (String × α)) : Option α :=
  (m.find? (fun p => decide (p.1 = k))).map (·.2)

/-- Floor-mod with a positive modulus, the semantics of the percent operator
of the source language on a positive right operand. -/
def pymod (a b : ℚ) : ℚ := a - b * Rat.floor (a / b)

/-- Round to the nearest integer, ties to the even integer: the semantics of
the builtin round function (on exact decimal values). -/
def roundHalfEven (q : ℚ) : ℤ :=
  if q - Rat.floor q < 1/2 then Rat.floor q
  else if 1/2 < q - Rat.floor q then Rat.floor q + 1
  else if Rat.floor q % 2 = 0 then Rat.floor q else Rat.floor q + 1

/-- Round to one decimal place, the semantics of round(x, 1) on exact
decimal values. -/
def pyRound1 (q : ℚ) : ℚ := (roundHalfEven (10 * q) : ℚ) / 10

/-! ## comparison_engine.py -/

/-- Angles computed via atan2 that wrap around plus or minus 180 degrees
(comparison_engine.py line 9). -/
def _WRAPAROUND_ANGLES : List String := ["shoulder_line_angle", "hip_line_angle"]

/-- Weights for ranking angle importance (comparison_engine.py lines 22-43). -/
def ANGLE_WEIGHTS : List ((String × String) × ℚ) :=
  [ (("spine_angle_dtl", "impact"), 3/2)
  , (("spine_angle_dtl", "top"), 13/10)
  , (("spine_tilt_fo", "impact"), 13/10)
  , (("right_elbow", "top"), 12/10)
  , (("left_elbow", "impact"), 13/10)
  , (("right_knee_flex", "address"), 7/10)
  , (("right_knee_flex", "top"), 7/10)
  , (("right_knee_flex", "impact"), 7/10)
  , (("right_knee_flex", "follow_through"), 7/10)
  , (("left_knee_flex", "address"), 7/10)
  , (("left_knee_flex", "top"), 7/10)
  , (("left_knee_flex", "impact"), 7/10)
  , (("left_knee_flex", "follow_through"), 7/10) ]

/-- Minimum absolute delta (degrees) to consider a difference significant
(comparison_engine.py line 47). -/
def MIN_DELTA_DEGREES : ℚ := 5

/-- Angles excluded from the top-3 ranking entirely
(comparison_engine.py lines 59-62). -/
def _EXCLUDE_ANGLES_FROM_RANKING : List String :=
  ["shoulder_line_angle", "hip_line_angle", "x_factor",
   "lead_arm_torso", "trail_arm_torso"]

/-- ANGLE_WEIGHTS.get((angle_name, phase), 1.0). -/
def angleWeight (nm ph : String) : ℚ :=
  ((ANGLE_WEIGHTS.find? (fun p => decide (p.1 = (nm, ph)))).map (·.2)).getD 1

/-- The angles table of one view/phase cell: the value of the key "angles"
inside user_angles[view][phase] (a missing key reads as the empty dict). -/
structure PhaseAngles where
  angles : List (String × ℚ)
deriving DecidableEq, Repr

abbrev ViewAngles := List (String × PhaseAngles)
abbrev AnglesData := List (String × ViewAngles)
abbrev PhaseDeltas := List (String × ℚ)
abbrev ViewDeltas := List (String × PhaseDeltas)
abbrev DeltasData := List (String × ViewDeltas)

/-- The wraparound branch of compute_deltas (lines 97-100): shortest
angular distance, rounded to one decimal place. -/
def wrap_delta (u r : ℚ) : ℚ := pyRound1 (pymod (u - r + 180) 360 - 180)

/-- The inner loop of compute_deltas over one phase cell
(comparison_engine.py lines 89-102): iterate the user angles in insertion
order, keep names also present on the reference side, subtract with
wraparound correction for the atan2-based angles.  (Non-numeric dict
values, which the source skips via an isinstance check, are not
representable in this embedding; all claims concern numeric cells.) -/
def compute_deltas_phase (userA refA : List (String × ℚ)) : PhaseDeltas :=
  userA.filterMap (fun c =>
    match alookup c.1 refA with
    | some r =>
        if c.1 ∈ _WRAPAROUND_ANGLES then
          some (c.1, wrap_delta c.2 r)
        else
          some (c.1, pyRound1 (c.2 - r))
    | none => none)

/-- The phase list iterated by compute_deltas. -/
def PHASE_KEYS : List String := ["address", "top", "impact", "follow_through"]

/-- compute_deltas (comparison_engine.py lines 65-106). -/
def compute_deltas (user ref : AnglesData) : DeltasData :=
  (["dtl", "fo"]).filterMap (fun view =>
    (match alookup view user, alookup view ref with
     | some uv, some rv =>
        some (PHASE_KEYS.filterMap (fun ph =>
          (match alookup ph uv, alookup ph rv with
           | some up, some rp => some (compute_deltas_phase up.angles rp.angles)
           | _, _ => none).map (Prod.mk ph)))
     | _, _ => none).map (Prod.mk view))

/-- Looking a delta cell up in the output of compute_deltas. -/
def deltaCell (d : DeltasData) (view ph nm : String) : Option ℚ :=
  match alookup view d with
  | some vd =>
      match alookup ph vd with
      | some pd => alookup nm pd
      | none => none
  | none => none

/-- user_angles[view][phase]["angles"].get(angle_name) as used by
rank_differences (a missing view or phase level reads as None here; on such
inputs the source raises instead of returning, so every claim about the
returned list is unaffected). -/
def get_angle_value (a : AnglesData) (view ph nm : String) : Option ℚ :=
  match alookup view a with
  | some vd =>
      match alookup ph vd with
      | some pd => alookup nm pd.angles
      | none => none
  | none => none

/-- One candidate entry of rank_differences before ranks are assigned
(comparison_engine.py lines 139-149). -/
structure DiffEntry where
  angle_name : String
  phase : String
  view : String
  user_value : ℚ
  reference_value : ℚ
  delta : ℚ
  weighted_abs : ℚ
deriving DecidableEq, Repr

/-- One returned entry of rank_differences, after weighted_abs is popped
and the 1-based rank is added. -/
structure RankedDiff where
  angle_name : String
  phase : String
  view : String
  user_value : ℚ
  reference_value : ℚ
  delta : ℚ
  rank : ℕ
deriving DecidableEq, Repr

/-- The all_diffs accumulation loop of rank_differences
(comparison_engine.py lines 120-149). -/
def all_diffs (deltas : DeltasData) (user ref : AnglesData) : List DiffEntry :=
  deltas.flatMap (fun v => v.2.flatMap (fun p => p.2.filterMap (fun c =>
    if |c.2| < MIN_DELTA_DEGREES then none
    else if c.1 ∈ _EXCLUDE_ANGLES_FROM_RANKING then none
    else
      match get_angle_value user v.1 p.1 c.1, get_angle_value ref v.1 p.1 c.1 with
      | some uv, some rv =>
          some ⟨c.1, p.1, v.1, uv, rv, c.2, |c.2| * angleWeight c.1 p.1⟩
      | _, _ => none)))

/-- Descending order on weighted absolute delta: the sort key of
all_diffs.sort(key=weighted_abs, reverse=True). -/
def wGE (a b : DiffEntry) : Prop := b.weighted_abs ≤ a.weighted_abs

instance : DecidableRel wGE := fun a b =>
  inferInstanceAs (Decidable (b.weighted_abs ≤ a.weighted_abs))

instance : IsTotal DiffEntry wGE := ⟨fun a b => le_total b.weighted_abs a.weighted_abs⟩

instance : IsTrans DiffEntry wGE := ⟨fun _ _ _ h1 h2 => le_trans h2 h1⟩

/-- The stable descending sort on weighted_abs (comparison_engine.py
line 152).  Insertion sort with the reflexive descending relation places an
earlier list element before a later one exactly when its key is greater or
equal, which is the stable behavior of the builtin list sort. -/
def sortDiffs (l : List DiffEntry) : List DiffEntry := List.insertionSort wGE l

/-- The selection loop of rank_differences (comparison_engine.py
lines 157-167): walk the sorted candidates, stop at 3 selections, skip a
candidate whose view already reached the per-view cap.  The view_counts
dict with get-default 0 is embedded as a function. -/
def select_loop (maxPerView : ℕ) : List DiffEntry → ℕ → (String → ℕ) → List DiffEntry
  | [], _, _ => []
  | d :: rest, selCount, counts =>
    if 3 ≤ selCount then []
    else if maxPerView ≤ counts d.view then select_loop maxPerView rest selCount counts
    else d :: select_loop maxPerView rest (selCount + 1)
          (fun v => if v = d.view then counts v + 1 else counts v)

/-- Rank assignment (comparison_engine.py lines 170-172): 1-based ranks in
selection order, dropping weighted_abs. -/
def add_ranks : List DiffEntry → ℕ → List RankedDiff
  | [], _ => []
  | d :: rest, i =>
      ⟨d.angle_name, d.phase, d.view, d.user_value, d.reference_value, d.delta, i + 1⟩
        :: add_ranks rest (i + 1)

/-- rank_differences (comparison_engine.py lines 109-182). -/
def rank_differences (deltas : DeltasData) (user ref : AnglesData) : List RankedDiff :=
  let sorted := sortDiffs (all_diffs deltas user ref)
  let maxPerView := if 1 < (deltas.map (·.1)).length then 2 else 3
  add_ranks (select_loop maxPerView sorted 0 (fun _ => 0)) 0

/-- The max_delta tolerance of compute_similarity_score
(comparison_engine.py lines 280-285). -/
def maxDeltaFor (nm ph : String) : ℚ :=
  if angleWeight nm ph < 1 then 45 / angleWeight nm ph else 45

/-- The per-angle score of compute_similarity_score
(comparison_engine.py line 286). -/
def per_angle_score (nm ph : String) (delta : ℚ) : ℚ :=
  max 0 (1 - |delta| / maxDeltaFor nm ph)

/-- The scores list accumulated by compute_similarity_score
(comparison_engine.py lines 271-286): one entry per delta cell, in
iteration order, with no name or magnitude filtering. -/
def similarity_scores (deltas : DeltasData) : List ℚ :=
  deltas.flatMap (fun v => v.2.flatMap (fun p =>
    p.2.map (fun c => per_angle_score c.1 p.1 c.2)))

/-- compute_similarity_score (comparison_engine.py lines 256-291). -/
def compute_similarity_score (deltas : DeltasData) : ℤ :=
  if (similarity_scores deltas).isEmpty then 0
  else roundHalfEven ((similarity_scores deltas).sum /
        ((similarity_scores deltas).length : ℚ) * 100)

/-- Pointwise comparison of two delta tables of identical shape: same views,
phases and angle names in the same order, with the absolute delta of the
first table cell-wise at most that of the second. -/
def DeltasAbsLe (d1 d2 : DeltasData) : Prop :=
  List.Forall₂ (fun v1 v2 => v1.1 = v2.1 ∧
    List.Forall₂ (fun p1 p2 => p1.1 = p2.1 ∧
      List.Forall₂ (fun c1 c2 => c1.1 = c2.1 ∧ |c1.2| ≤ |c2.2|) p1.2 p2.2) v1.2 v2.2) d1 d2

/-- Fields of a candidate entry survive unchanged into the ranked output. -/
def fieldsEq (d : DiffEntry) (e : RankedDiff) : Prop :=
  d.angle_name = e.angle_name ∧ d.phase = e.phase ∧ d.view = e.view
  ∧ d.user_value = e.user_value ∧ d.reference_value = e.reference_value
  ∧ d.delta = e.delta

/-! ## feedback_engine.py -/

/-- A rule that maps an angle delta to coaching feedback
(feedback_engine.py lines 9-21). -/
structure FaultRule where
  angle_name : String
  phase : String
  view : String
  min_delta : Option ℚ
  max_delta : Option ℚ
  severity : String
  title : String
  description : String
  coaching_tip : String
deriving DecidableEq, Repr

/-- Leftmost non-overlapping replacement of every occurrence of a pattern,
the semantics of str.replace; fuel-indexed structural recursion. -/
def replaceList (p r : List Char) : ℕ → List Char → List Char
  | 0, l => l
  | _ + 1, [] => []
  | fuel + 1, c :: rest =>
    if p ≠ [] ∧ (c :: rest).take p.length = p then
      r ++ replaceList p r fuel ((c :: rest).drop p.length)
    else
      c :: replaceList p r fuel rest

def strReplace (s pat rep : String) : String :=
  ⟨replaceList pat.data rep.data s.data.length s.data⟩

/-- Fixed-point rendering with one decimal digit: the semantics of the
format spec .1f on exact decimal values. -/
def fmt1 (q : ℚ) : String :=
  (if roundHalfEven (10 * q) < 0 then "-" else "")
    ++ toString ((roundHalfEven (10 * q)).natAbs / 10) ++ "."
    ++ toString ((roundHalfEven (10 * q)).natAbs % 10)

/-- str.title for ASCII text: uppercase an alphabetic character that does
not follow an alphabetic character, lowercase the rest. -/
def titleChars : Bool → List Char → List Char
  | _, [] => []
  | prevAlpha, c :: rest =>
    (if c.isAlpha then (if prevAlpha then c.toLower else c.toUpper) else c)
      :: titleChars c.isAlpha rest

def pyTitle (s : String) : String := ⟨titleChars false s.data⟩

def pyLower (s : String) : String := ⟨s.data.map Char.toLower⟩

/-- The replacements table of _format_angle_name
(feedback_engine.py lines 679-695). -/
def ANGLE_NAME_LABELS : List (String × String) :=
  [ ("spine_angle_dtl", "Spine Angle")
  , ("lead_arm_torso", "Lead Arm-Torso Angle")
  , ("trail_arm_torso", "Trail Arm-Torso Angle")
  , ("right_elbow", "Right Elbow Angle")
  , ("left_elbow", "Left Elbow Angle")
  , ("right_knee_flex", "Right Knee Flex")
  , ("left_knee_flex", "Left Knee Flex")
  , ("right_wrist_cock", "Wrist Cock")
  , ("shoulder_line_angle", "Shoulder Tilt")
  , ("hip_line_angle", "Hip Tilt")
  , ("x_factor", "Shoulder-Hip Tilt Gap")
  , ("spine_tilt_fo", "Spine Tilt") ]

def _format_angle_name (name : String) : String :=
  match alookup name ANGLE_NAME_LABELS with
  | some t => t
  | none => pyTitle (strReplace name "_" " ")

/-- The replacements table of _format_phase
(feedback_engine.py lines 698-706). -/
def PHASE_LABELS : List (String × String) :=
  [ ("address", "Address")
  , ("top", "Top of Backswing")
  , ("impact", "Impact")
  , ("follow_through", "Follow-Through") ]

def _format_phase (phase : String) : String :=
  match alookup phase PHASE_LABELS with
  | some t => t
  | none => pyTitle (strReplace phase "_" " ")

/-- The complete fault rule catalog for iron swings, in declaration order
(feedback_engine.py lines 28-558). -/
def FAULT_RULES : List FaultRule :=
  [ ⟨"spine_angle_dtl", "address", "dtl", none, some 8, "moderate",
      "Too Upright at Setup",
      "Your spine angle at address is \x7buser_value:.1f\x7d° compared to Tiger\x27s \x7bref_value:.1f\x7d° — you\x27re standing \x7babs_delta:.1f\x7d° more upright. Insufficient forward bend limits your ability to rotate on plane.",
      "Hinge more from your hips at setup. Feel like your belt buckle points toward the ball. Your arms should hang naturally below your shoulders."⟩
  , ⟨"spine_angle_dtl", "address", "dtl", some (-8), none, "moderate",
      "Too Much Forward Bend at Setup",
      "Your spine angle at address is \x7buser_value:.1f\x7d° compared to Tiger\x27s \x7bref_value:.1f\x7d° — you\x27re bending \x7babs_delta:.1f\x7d° more forward. Excessive bend leads to balance issues and restricted rotation.",
      "Stand slightly taller at address. Feel athletic, like a goalkeeper ready to move. Your weight should be balanced on the balls of your feet."⟩
  , ⟨"spine_angle_dtl", "impact", "dtl", none, some 6, "major",
      "Early Extension (Loss of Posture)",
      "Your spine angle at impact is \x7buser_value:.1f\x7d° versus Tiger\x27s \x7bref_value:.1f\x7d° — you\x27ve stood up \x7babs_delta:.1f\x7d° through the ball. This is one of the most common amateur faults and causes thin shots and blocks.",
      "Practice hitting balls with your backside against a wall or chair. If you lose contact before impact, you\x27re extending early. Feel your belt buckle stay pointed at the ball through impact."⟩
  , ⟨"spine_angle_dtl", "impact", "dtl", some (-6), none, "major",
      "Excessive Forward Bend at Impact",
      "Your spine angle at impact is \x7buser_value:.1f\x7d° versus Tiger\x27s \x7bref_value:.1f\x7d° — you\x27ve dipped \x7babs_delta:.1f\x7d° more forward. Excessive dip causes fat shots and inconsistent low point.",
      "Maintain your address spine angle through the swing. A drill: place a club across your shoulders and turn — if the club points at the ground in front of the ball at impact, you\x27re dipping."⟩
  , ⟨"spine_angle_dtl", "top", "dtl", none, some 8, "moderate",
      "Posture Loss in Backswing",
      "Your spine angle at the top is \x7buser_value:.1f\x7d° versus Tiger\x27s \x7bref_value:.1f\x7d° — you\x27ve straightened \x7babs_delta:.1f\x7d° during the backswing. Losing posture early makes it hard to recover at impact.",
      "Feel like you maintain your address posture throughout the backswing. A slight knee flex and steady head position help preserve spine angle."⟩
  , ⟨"lead_arm_torso", "top", "dtl", some (-15), none, "major",
      "Limited Backswing Arc",
      "Your lead arm reaches \x7buser_value:.1f\x7d° of separation from your torso at the top, compared to Tiger\x27s \x7bref_value:.1f\x7d°. This \x7babs_delta:.1f\x7d° gap limits your swing arc and power.",
      "Focus on a fuller shoulder turn while keeping your left arm extended. Feel like your hands reach the 1 o\x27clock position at the top."⟩
  , ⟨"lead_arm_torso", "top", "dtl", none, some 15, "moderate",
      "Overswinging Past Parallel",
      "Your lead arm separation at the top is \x7buser_value:.1f\x7d° versus Tiger\x27s \x7bref_value:.1f\x7d°. Overswinging \x7babs_delta:.1f\x7d° past parallel reduces control and consistency.",
      "Try stopping your backswing when you feel your shoulder turn is complete. Use a mirror to check your top position — the club shaft should not dip past parallel."⟩
  , ⟨"lead_arm_torso", "impact", "dtl", none, some 10, "moderate",
      "Arms Cast Away from Body at Impact",
      "Your lead arm-torso angle at impact is \x7buser_value:.1f\x7d° versus Tiger\x27s \x7bref_value:.1f\x7d° — your arms are \x7babs_delta:.1f\x7d° further from your body. This casting motion loses lag and power.",
      "Feel your lead arm reconnect with your chest through impact. Practice with a glove under your lead armpit — if it drops before impact, you\x27re casting."⟩
  , ⟨"right_elbow", "top", "dtl", none, some 15, "major",
      "Flying Right Elbow",
      "Your right elbow angle at the top is \x7buser_value:.1f\x7d° versus Tiger\x27s \x7bref_value:.1f\x7d°. A \x7babs_delta:.1f\x7d° wider elbow gets the club off-plane and makes it harder to return square at impact.",
      "Keep a headcover or towel under your right arm during practice swings. Your right elbow should point down, not out, at the top."⟩
  , ⟨"right_elbow", "top", "dtl", some (-15), none, "moderate",
      "Cramped Right Elbow at Top",
      "Your right elbow angle at the top is \x7buser_value:.1f\x7d° versus Tiger\x27s \x7bref_value:.1f\x7d° — it\x27s \x7babs_delta:.1f\x7d° more folded. An overly compact top position limits swing width and power.",
      "Allow your right elbow to fold naturally — it should point roughly at the ground. Don\x27t squeeze your arms tight to your body."⟩
  , ⟨"left_elbow", "impact", "dtl", some (-12), none, "major",
      "Chicken Wing at Impact",
      "Your left elbow is \x7buser_value:.1f\x7d° at impact compared to Tiger\x27s \x7bref_value:.1f\x7d° — your lead arm is \x7babs_delta:.1f\x7d° more bent. A bent lead arm at impact causes inconsistent contact and loss of power.",
      "Focus on extending your lead arm through the ball. Practice one-arm swings with your left arm to build extension. Feel the back of your left hand driving toward the target."⟩
  , ⟨"right_knee_flex", "address", "dtl", some (-12), none, "moderate",
      "Excessive Knee Flex at Setup",
      "Your right knee flex at address is \x7buser_value:.1f\x7d° versus Tiger\x27s \x7bref_value:.1f\x7d° — \x7babs_delta:.1f\x7d° more bent. Too much knee bend restricts your hip turn and causes balance issues.",
      "Set up with athletic posture — feel like you\x27re about to field a ground ball. Knees should be slightly flexed, not deeply bent."⟩
  , ⟨"right_knee_flex", "address", "dtl", none, some 12, "moderate",
      "Legs Too Straight at Setup",
      "Your right knee flex at address is \x7buser_value:.1f\x7d° versus Tiger\x27s \x7bref_value:.1f\x7d° — \x7babs_delta:.1f\x7d° straighter. Locked knees limit athletic movement and weight transfer.",
      "Add a slight flex to your knees at address. You should feel balanced and ready to move in any direction."⟩
  , ⟨"right_knee_flex", "top", "dtl", none, some 10, "major",
      "Trail Leg Straightening (Sway)",
      "Your right knee flex at the top is \x7buser_value:.1f\x7d° versus Tiger\x27s \x7bref_value:.1f\x7d° — it\x27s straightened \x7babs_delta:.1f\x7d°. A straightening trail leg means lateral sway instead of rotation.",
      "Keep flex in your right knee throughout the backswing. Feel like you\x27re loading into the inside of your right foot. Practice with a ball under the outside of your right foot."⟩
  , ⟨"right_knee_flex", "top", "fo", none, some 10, "major",
      "Lower Body Sway",
      "Your right knee flex at the top is \x7buser_value:.1f\x7d° versus Tiger\x27s \x7bref_value:.1f\x7d° — it\x27s straightened \x7babs_delta:.1f\x7d°. A straightening trail leg indicates lateral sway rather than rotational loading.",
      "Keep flex in your right knee throughout the backswing. Practice with a ball under the outside of your right foot."⟩
  , ⟨"right_wrist_cock", "top", "dtl", some (-15), none, "moderate",
      "Insufficient Wrist Hinge",
      "Your wrist cock at the top is \x7buser_value:.1f\x7d° versus Tiger\x27s \x7bref_value:.1f\x7d° — \x7babs_delta:.1f\x7d° less hinge. Losing wrist angle too early costs distance and control.",
      "Practice half swings focusing on maintaining wrist hinge until your hands pass your right thigh in the downswing."⟩
  , ⟨"right_wrist_cock", "top", "dtl", none, some 15, "minor",
      "Excessive Wrist Hinge",
      "Your wrist cock at the top is \x7buser_value:.1f\x7d° versus Tiger\x27s \x7bref_value:.1f\x7d° — \x7babs_delta:.1f\x7d° more hinged. While wrist hinge generates power, excessive hinge can make the clubface harder to control.",
      "Let your wrists hinge naturally during the backswing. Avoid forcing or over-cocking — the hinge should feel effortless."⟩
  , ⟨"spine_tilt_fo", "impact", "fo", none, some 10, "major",
      "Reverse Spine Angle at Impact",
      "Your spine tilt at impact is \x7buser_value:.1f\x7d° versus Tiger\x27s \x7bref_value:.1f\x7d° — you\x27re \x7babs_delta:.1f\x7d° more upright or leaning toward the target. This \x27reverse spine\x27 puts stress on your back and reduces power.",
      "Feel your right shoulder work under and through, not over and around. At impact, your spine should tilt slightly away from the target. Practice slow-motion swings focusing on keeping your head behind the ball."⟩
  , ⟨"spine_tilt_fo", "impact", "fo", some (-10), none, "moderate",
      "Excessive Spine Tilt at Impact",
      "Your spine tilt at impact is \x7buser_value:.1f\x7d° versus Tiger\x27s \x7bref_value:.1f\x7d° — you\x27re leaning \x7babs_delta:.1f\x7d° more away from the target. Excessive tilt can cause thin and topped shots.",
      "Focus on rotating through the ball rather than hanging back. Feel your weight shift to your lead foot while maintaining a centered pivot."⟩
  , ⟨"spine_tilt_fo", "address", "fo", none, some 8, "moderate",
      "Setup Spine Tilt Too Upright",
      "Your spine tilt at address is \x7buser_value:.1f\x7d° versus Tiger\x27s \x7bref_value:.1f\x7d° — \x7babs_delta:.1f\x7d° more upright. A slight tilt away from the target at setup helps promote a proper impact position.",
      "At address, let your trail hand sit lower on the grip, which naturally creates a slight spine tilt away from the target."⟩
  , ⟨"lead_arm_torso", "top", "fo", some (-15), none, "moderate",
      "Restricted Shoulder Turn (Face-On)",
      "Your lead arm-torso angle at the top is \x7buser_value:.1f\x7d° versus Tiger\x27s \x7bref_value:.1f\x7d° — \x7babs_delta:.1f\x7d° less rotation. A restricted turn limits power generation.",
      "Turn your lead shoulder behind the ball at the top. Feel like your back faces the target at the top of the backswing."⟩
  , ⟨"lead_arm_torso", "impact", "fo", none, some 8, "moderate",
      "Arm-Body Connection Lost at Impact",
      "Your arm-body angle at impact is \x7buser_value:.1f\x7d° versus Tiger\x27s \x7bref_value:.1f\x7d° — \x7babs_delta:.1f\x7d° more separated. Maintaining connection between your arms and body produces more consistent strikes.",
      "Practice with a glove under your lead armpit. If the glove drops before impact, you\x27re losing connection."⟩
  , ⟨"left_knee_flex", "impact", "fo", some (-12), none, "moderate",
      "Lead Knee Collapsing at Impact",
      "Your left knee flex at impact is \x7buser_value:.1f\x7d° versus Tiger\x27s \x7bref_value:.1f\x7d° — \x7babs_delta:.1f\x7d° more bent. A collapsing lead knee bleeds power and causes inconsistent contact.",
      "Feel your left leg firm up through impact. The lead knee should straighten slightly, creating a solid post to rotate around. Practice step-through drills to feel proper weight transfer."⟩
  , ⟨"left_knee_flex", "impact", "fo", none, some 12, "minor",
      "Locked Lead Knee at Impact",
      "Your left knee flex at impact is \x7buser_value:.1f\x7d° versus Tiger\x27s \x7bref_value:.1f\x7d° — \x7babs_delta:.1f\x7d° straighter. While a firm lead leg is good, a fully locked knee limits rotation and can stress the joint.",
      "Allow a slight flex in your lead knee at impact. It should be firm but not rigid."⟩
  , ⟨"left_elbow", "impact", "fo", some (-12), none, "major",
      "Lead Arm Breakdown at Impact",
      "Your left elbow is \x7buser_value:.1f\x7d° at impact versus Tiger\x27s \x7bref_value:.1f\x7d° — \x7babs_delta:.1f\x7d° more bent. A bent lead arm through impact causes inconsistent contact and loss of power.",
      "Focus on extending your lead arm through the ball. The left arm should be nearly straight at impact. Practice half-swings focusing on lead arm extension."⟩
  , ⟨"right_elbow", "impact", "fo", some (-10), none, "moderate",
      "Trail Arm Still Bent at Impact",
      "Your right elbow is \x7buser_value:.1f\x7d° at impact versus Tiger\x27s \x7bref_value:.1f\x7d° — \x7babs_delta:.1f\x7d° more bent. The trail arm should be extending through impact to deliver power.",
      "Feel your right arm extending through the ball, like you\x27re throwing a ball underhand toward the target. The right arm straightens just after impact."⟩ ]

/-- _rule_matches (feedback_engine.py lines 561-572): the directional delta
condition; a rule with both bounds None never matches. -/
def _rule_matches (rule : FaultRule) (delta : ℚ) : Bool :=
  (match rule.min_delta with
   | some m => decide (delta ≤ m)
   | none => false)
  || (match rule.max_delta with
      | some m => decide (m ≤ delta)
      | none => false)

/-- The full match condition of the rule-scanning loop in generate_feedback
(feedback_engine.py lines 607-615). -/
def applies_to (rule : FaultRule) (diff : RankedDiff) : Bool :=
  decide (rule.angle_name = diff.angle_name) && decide (rule.phase = diff.phase)
    && decide (rule.view = diff.view) && _rule_matches rule diff.delta

/-- matched_rule.description.format(user_value, ref_value, abs_delta, delta)
(feedback_engine.py lines 618-623). -/
def render_description (t : String) (uv rv ad d : ℚ) : String :=
  strReplace (strReplace (strReplace (strReplace t
    "\x7buser_value:.1f\x7d" (fmt1 uv))
    "\x7bref_value:.1f\x7d" (fmt1 rv))
    "\x7babs_delta:.1f\x7d" (fmt1 ad))
    "\x7bdelta:.1f\x7d" (fmt1 d)

/-- One enriched feedback entry (the spread of the input diff plus the
severity, title, rendered description and coaching tip fields). -/
structure Feedback where
  angle_name : String
  phase : String
  view : String
  user_value : ℚ
  reference_value : ℚ
  delta : ℚ
  rank : ℕ
  severity : String
  title : String
  description : String
  coaching_tip : String
deriving DecidableEq, Repr

/-- The matched-rule branch of generate_feedback
(feedback_engine.py lines 617-632). -/
def mkEnriched (diff : RankedDiff) (rule : FaultRule) : Feedback :=
  ⟨diff.angle_name, diff.phase, diff.view, diff.user_value, diff.reference_value,
   diff.delta, diff.rank, rule.severity, rule.title,
   render_description rule.description diff.user_value diff.reference_value
     |diff.delta| diff.delta,
   rule.coaching_tip⟩

/-- The per-entry body of generate_feedback (feedback_engine.py
lines 596-659): scan the catalog in declaration order, use the first rule
whose key and directional condition match, otherwise synthesize the
directional fallback. -/
def enrich_one (diff : RankedDiff) : Feedback :=
  match FAULT_RULES.find? (fun rule => applies_to rule diff) with
  | some rule => mkEnriched diff rule
  | none =>
    ⟨diff.angle_name, diff.phase, diff.view, diff.user_value, diff.reference_value,
     diff.delta, diff.rank,
     (if 12 < |diff.delta| then "moderate" else "minor"),
     _format_angle_name diff.angle_name ++ " at " ++ _format_phase diff.phase,
     "Your " ++ pyLower (_format_angle_name diff.angle_name) ++ " at "
       ++ pyLower (_format_phase diff.phase) ++ " is " ++ fmt1 diff.user_value
       ++ "° compared to Tiger\x27s " ++ fmt1 diff.reference_value ++ "° — "
       ++ fmt1 |diff.delta| ++ "° " ++ (if 0 < diff.delta then "more" else "less")
       ++ ". Review your " ++ pyLower (_format_phase diff.phase)
       ++ " position in the side-by-side video to see the difference.",
     "Compare your " ++ pyLower (_format_phase diff.phase)
       ++ " position to Tiger\x27s using the video player above. Focus on your "
       ++ pyLower (_format_angle_name diff.angle_name) ++ " — yours is "
       ++ fmt1 |diff.delta| ++ "° " ++ (if 0 < diff.delta then "more" else "less")
       ++ " than Tiger\x27s at this point in the swing."⟩

/-- generate_feedback (feedback_engine.py lines 575-662); the user and
reference angle tables are accepted, as in the source, but unused. -/
def generate_feedback (ranked_diffs : List RankedDiff)
    (_user_angles _ref_angles : AnglesData) : List Feedback :=
  ranked_diffs.map enrich_one

/-! ## calculate_angles.py: angle_at_joint (C9)

These primitives genuinely need square roots and the arccosine, so they are
embedded over the reals (the one part of the development that is not
executable). -/

noncomputable def npDot {n : ℕ} (v w : Fin n → ℝ) : ℝ := ∑ i, v i * w i

noncomputable def npNorm {n : ℕ} (v : Fin n → ℝ) : ℝ := Real.sqrt (∑ i, (v i) ^ 2)

/-- np.clip(x, lo, hi) for lo at most hi: clamp below then above. -/
noncomputable def npClip (x lo hi : ℝ) : ℝ := min hi (max lo x)

/-- angle_between_vectors (calculate_angles.py lines 60-64): arccosine of
the dot product over the epsilon-guarded product of norms, clamped to
[-1, 1], converted to degrees. -/
noncomputable def angle_between_vectors {n : ℕ} (v1 v2 : Fin n → ℝ) : ℝ :=
  Real.arccos (npClip (npDot v1 v2 / (npNorm v1 * npNorm v2 + 1/100000000)) (-1) 1)
    * 180 / Real.pi

/-- angle_at_joint (calculate_angles.py lines 67-74): the angle at vertex b
formed by the rays toward a and c. -/
noncomputable def angle_at_joint {n : ℕ} (a b c : Fin n → ℝ) : ℝ :=
  angle_between_vectors (a - b) (c - b)

/-! ## detect_phases.py: signal preprocessing -/

/-- Truncation toward zero: the semantics of int() on a float. -/
def pyInt (q : ℚ) : ℤ := if q < 0 then -(Rat.floor (-q)) else Rat.floor q

def pyNat (q : ℚ) : ℕ := (pyInt q).toNat

/-- The slice l[a:b] with the clamping semantics of sequence slicing. -/
def sliceQ (l : List ℚ) (a b : ℕ) : List ℚ := (l.drop a).take (b - a)

def getQ (l : List ℚ) (i : ℕ) : ℚ := (l.get? i).getD 0

/-- np.max over a non-empty NaN-free array (the empty case never arises on
the guarded paths of the source). -/
def maxQ : List ℚ → ℚ
  | [] => 0
  | x :: rest => rest.foldl max x

def meanQ (l : List ℚ) : ℚ := l.sum / (l.length : ℚ)

/-- np.argmax: index of the first occurrence of the maximum. -/
def argmaxAux : List ℚ → ℕ → ℕ → ℚ → ℕ
  | [], _, bi, _ => bi
  | x :: rest, i, bi, bv =>
    if bv < x then argmaxAux rest (i + 1) i x else argmaxAux rest (i + 1) bi bv

def argmaxIdx : List ℚ → ℕ
  | [] => 0
  | x :: rest => argmaxAux rest 1 0 x

/-- np.argmin: index of the first occurrence of the minimum. -/
def argminAux : List ℚ → ℕ → ℕ → ℚ → ℕ
  | [], _, bi, _ => bi
  | x :: rest, i, bi, bv =>
    if x < bv then argminAux rest (i + 1) i x else argminAux rest (i + 1) bi bv

def argminIdx : List ℚ → ℕ
  | [] => 0
  | x :: rest => argminAux rest 1 0 x

/-- np.diff: consecutive differences. -/
def diffsQ (l : List ℚ) : List ℚ := (l.zip l.tail).map (fun p => p.2 - p.1)

/-- The full discrete convolution, length M + N - 1. -/
def convFull (a v : List ℚ) : List ℚ :=
  (List.range (a.length + v.length - 1)).map (fun k =>
    ((List.range v.length).map (fun j =>
      if j ≤ k ∧ k - j < a.length then getQ v j * getQ a (k - j) else 0)).sum)

/-- np.convolve(a, v, mode="same"): the centered middle max(M, N) entries of
the full convolution. -/
def npConvSame (a v : List ℚ) : List ℚ :=
  ((convFull a v).drop ((min a.length v.length - 1) / 2)).take (max a.length v.length)

def kernelQ (w : ℕ) : List ℚ := List.replicate w (1 / (w : ℚ))

/-- The edge-padded moving average used by smooth_signal and by the
directional-velocity smoothing of find_top_of_backswing
(detect_phases.py lines 90-96 and 233-238): pad both edges with the edge
value, convolve with the box kernel in same mode, then slice the original
extent back out. -/
def smoothListQ (sig : List ℚ) (window : ℕ) : List ℚ :=
  ((npConvSame
      (List.replicate (window / 2) (sig.headD 0) ++ sig
        ++ List.replicate (window / 2) (sig.getLastD 0))
      (kernelQ window)).drop (window / 2)).take sig.length

/-- Linear interpolation through the valid samples, the semantics of
np.interp evaluated at every integer index with edge extrapolation
(detect_phases.py lines 83-86). -/
def interpPairs : List (ℕ × ℚ) → ℕ → ℚ
  | [], _ => 0
  | [(_, v0)], _ => v0
  | (x0, v0) :: (x1, v1) :: rest, i =>
    if i ≤ x0 then v0
    else if i ≤ x1 then
      v0 + (v1 - v0) * ((i : ℚ) - (x0 : ℚ)) / ((x1 : ℚ) - (x0 : ℚ))
    else interpPairs ((x1, v1) :: rest) i

def validPairs (sig : List (Option ℚ)) : List (ℕ × ℚ) :=
  ((List.range sig.length).zip sig).filterMap (fun p => p.2.map (fun q => (p.1, q)))

def interpNaN (sig : List (Option ℚ)) : List ℚ :=
  (List.range sig.length).map (interpPairs (validPairs sig))

/-- compute_velocity (detect_phases.py lines 99-107): rolling mean of the
absolute consecutive differences, with a leading zero. -/
def compute_velocity (sig : List ℚ) (window : ℕ) : List ℚ :=
  0 :: npConvSame ((sig.zip sig.tail).map (fun p => |p.2 - p.1|)) (kernelQ window)

/-! Default algorithm parameters (detect_phases.py lines 29-41). -/

def SMOOTHING_WINDOW : ℕ := 5
def VELOCITY_WINDOW : ℕ := 10
def STILL_THRESHOLD : ℚ := 1/1000
def MIN_STILL_DURATION : ℕ := 5
def TOP_PROMINENCE_THRESHOLD : ℚ := 1/20
def DOWNSWING_VALIDATION_FRAMES : ℕ := 20
def MIN_VISIBILITY : ℚ := 2/5

/-! ## detect_phases.py: the four phase finders -/

/-- The run-scanning loop of _has_preceding_address (detect_phases.py
lines 161-191): visit the velocity region with a current run start; when a
run of at least 3 still frames ends, return true if the mean hand height
over it is in the lower half, otherwise keep scanning; also check a run
that extends to the end of the region. -/
def hpaLoop (ySmooth : List ℚ) (roughY : ℚ) (searchStart : ℕ) :
    List ℚ → ℕ → Option ℕ → Bool
  | [], i, runStart =>
    match runStart with
    | some rs =>
        decide (3 ≤ i - rs)
          && decide (roughY * (1/2) < meanQ (sliceQ ySmooth (searchStart + rs) (searchStart + i)))
    | none => false
  | v :: rest, i, runStart =>
    if v < STILL_THRESHOLD * 3 then
      hpaLoop ySmooth roughY searchStart rest (i + 1) (some (runStart.getD i))
    else
      match runStart with
      | some rs =>
        if 3 ≤ i - rs
            ∧ roughY * (1/2) < meanQ (sliceQ ySmooth (searchStart + rs) (searchStart + i)) then
          true
        else hpaLoop ySmooth roughY searchStart rest (i + 1) none
      | none => hpaLoop ySmooth roughY searchStart rest (i + 1) none

/-- _has_preceding_address (detect_phases.py lines 144-191). -/
def _has_preceding_address (localMinIdx : ℕ) (velocity ySmooth : List ℚ)
    (roughAddressY fps : ℚ) : Bool :=
  hpaLoop ySmooth roughAddressY (localMinIdx - pyNat (fps * 5))
    (sliceQ velocity (localMinIdx - pyNat (fps * 5)) localMinIdx) 0 none

/-- The deduplicating velocity-peak accumulation of find_top_of_backswing
(detect_phases.py lines 254-265). -/
def buildVelPeaks (dv : List ℚ) (thr : ℚ) (fps : ℚ) : List ℕ :=
  (List.range' 2 (dv.length - 4)).foldl (fun acc i =>
    if getQ dv (i - 1) ≤ getQ dv i ∧ getQ dv (i + 1) ≤ getQ dv i ∧ thr < getQ dv i then
      match acc.getLast? with
      | some lastP =>
        if i - lastP < pyNat (fps * (1/2)) then
          (if getQ dv lastP < getQ dv i then acc.dropLast ++ [i] else acc)
        else acc ++ [i]
      | none => [i]
    else acc) []

def pySortedNat (l : List ℕ) : List ℕ := List.insertionSort (fun a b => a ≤ b) l

/-- The candidate-peak loop of find_top_of_backswing (detect_phases.py
lines 271-320): for each velocity peak in chronological order, backtrack
to the preceding minimum of the hand height and validate prominence, the
V-shape return, and a preceding address. -/
def findTopPeakLoop (ySmooth velocity : List ℚ) (roughY fps : ℚ) (n : ℕ) :
    List ℕ → Option ℕ
  | [] => none
  | peakFrame :: rest =>
    if (sliceQ ySmooth (peakFrame - pyNat (fps * 3)) (peakFrame + 1)).length ≤ 2 then
      findTopPeakLoop ySmooth velocity roughY fps n rest
    else
      if roughY - getQ ySmooth
          (argminIdx (sliceQ ySmooth (peakFrame - pyNat (fps * 3)) (peakFrame + 1))
            + (peakFrame - pyNat (fps * 3))) ≤ TOP_PROMINENCE_THRESHOLD then
        findTopPeakLoop ySmooth velocity roughY fps n rest
      else
        if 0 < (sliceQ ySmooth
              (argminIdx (sliceQ ySmooth (peakFrame - pyNat (fps * 3)) (peakFrame + 1))
                + (peakFrame - pyNat (fps * 3)))
              (min ((argminIdx (sliceQ ySmooth (peakFrame - pyNat (fps * 3)) (peakFrame + 1))
                + (peakFrame - pyNat (fps * 3))) + pyNat (fps * (3/2))) n)).length
          ∧ (if 0 < roughY then
              maxQ (sliceQ ySmooth
                (argminIdx (sliceQ ySmooth (peakFrame - pyNat (fps * 3)) (peakFrame + 1))
                  + (peakFrame - pyNat (fps * 3)))
                (min ((argminIdx (sliceQ ySmooth (peakFrame - pyNat (fps * 3)) (peakFrame + 1))
                  + (peakFrame - pyNat (fps * 3))) + pyNat (fps * (3/2))) n)) / roughY
            else 0) < 3/5 then
          findTopPeakLoop ySmooth velocity roughY fps n rest
        else
          if _has_preceding_address
              (argminIdx (sliceQ ySmooth (peakFrame - pyNat (fps * 3)) (peakFrame + 1))
                + (peakFrame - pyNat (fps * 3)))
              velocity ySmooth roughY fps then
            some (argminIdx (sliceQ ySmooth (peakFrame - pyNat (fps * 3)) (peakFrame + 1))
              + (peakFrame - pyNat (fps * 3)))
          else findTopPeakLoop ySmooth velocity roughY fps n rest

/-- find_top_of_backswing (detect_phases.py lines 194-373).  The directional
velocity is the visibility-weighted consecutive difference of the smoothed
hand height, smoothed again with window max(3, smoothing_window).  When that
signal is empty (a single-frame video) the source raises inside np.pad /
np.argmax before any fallback can run, so no top can be found: embedded as
none. -/
def find_top_of_backswing (ySmooth velocity : List ℚ) (roughY fps : ℚ)
    (vis : List ℚ) : Option ℕ :=
  let n := ySmooth.length
  let yDiff := diffsQ ySmooth
  let visSmooth := smoothListQ (interpNaN (vis.map some)) SMOOTHING_WINDOW
  let visWeight := visSmooth.dropLast.map (fun q => min 1 (max (3/10) q))
  let weighted := List.zipWith (fun a b => a * b) yDiff visWeight
  if weighted.isEmpty then none
  else
    let dirVelSmooth := smoothListQ weighted (max 3 SMOOTHING_WINDOW)
    let globalPeakVel := getQ dirVelSmooth (argmaxIdx dirVelSmooth)
    let s1 : Option ℕ :=
      if STILL_THRESHOLD * 5 < globalPeakVel then
        findTopPeakLoop ySmooth velocity roughY fps n
          (pySortedNat (buildVelPeaks dirVelSmooth (globalPeakVel * (2/5)) fps))
      else none
    match s1 with
    | some t => some t
    | none =>
      let minima := (List.range' 2 (n - 4)).filter (fun i =>
        getQ ySmooth i ≤ getQ ySmooth (i - 1) ∧ getQ ySmooth i ≤ getQ ySmooth (i + 1)
          ∧ getQ ySmooth i ≤ getQ ySmooth (i - 2) ∧ getQ ySmooth i ≤ getQ ySmooth (i + 2))
      let qualified := minima.filter (fun m =>
        TOP_PROMINENCE_THRESHOLD < roughY - getQ ySmooth m)
      let validated := qualified.filter (fun cdt =>
        0 < (sliceQ velocity cdt (min (cdt + DOWNSWING_VALIDATION_FRAMES) n)).length
        ∧ STILL_THRESHOLD * 3 < maxQ (sliceQ velocity cdt (min (cdt + DOWNSWING_VALIDATION_FRAMES) n))
        ∧ 3/5 ≤ (if 0 < roughY then
            (if 0 < (sliceQ ySmooth cdt (min (cdt + pyNat (fps * (3/2))) n)).length then
              maxQ (sliceQ ySmooth cdt (min (cdt + pyNat (fps * (3/2))) n)) else 0) / roughY
          else 0)
        ∧ _has_preceding_address cdt velocity ySmooth roughY fps)
      match validated with
      | best :: _ => some best
      | [] =>
        match qualified with
        | best :: _ => some best
        | [] => if 0 < n then some (argminIdx ySmooth) else none

/-- The maximal still runs of at least a minimum duration, as inclusive
(start, end) index pairs: the run-collection loop of find_address
(detect_phases.py lines 391-402). -/
def runsAux (minDur : ℕ) : List Bool → ℕ → Option ℕ → List (ℕ × ℕ)
  | [], i, runStart =>
    match runStart with
    | some rs => if minDur ≤ i - rs then [(rs, i - 1)] else []
    | none => []
  | b :: rest, i, runStart =>
    if b then runsAux minDur rest (i + 1) (some (runStart.getD i))
    else
      match runStart with
      | some rs =>
        if minDur ≤ i - rs then (rs, i - 1) :: runsAux minDur rest (i + 1) none
        else runsAux minDur rest (i + 1) none
      | none => runsAux minDur rest (i + 1) none

/-- max(runs, key): first element attaining the maximum key. -/
def pyMaxBy (l : List (ℕ × ℕ)) (key : ℕ × ℕ → ℚ) : ℕ × ℕ :=
  match l with
  | [] => (0, 0)
  | x :: rest => rest.foldl (fun best y => if key best < key y then y else best) x

/-- The still runs searched by find_address (detect_phases.py
lines 387-402): runs of below-threshold velocity before the top frame
lasting at least min_still_duration frames. -/
def addressRuns (velocity : List ℚ) (topFrame : ℕ) : List (ℕ × ℕ) :=
  runsAux MIN_STILL_DURATION
    ((velocity.take topFrame).map (fun v => decide (v < STILL_THRESHOLD))) 0 none

/-- find_address (detect_phases.py lines 376-446): the last still run before
the top whose mean hand height is in the lower half of the observed range;
within the run, the frame of maximum height; with fallbacks to the
highest-mean run and to frame 0. -/
def find_address (ySmooth velocity : List ℚ) (topFrame : ℕ) : ℕ :=
  if (addressRuns velocity topFrame).isEmpty then 0
  else
    match ((addressRuns velocity topFrame).filter (fun r =>
        decide ((getQ ySmooth topFrame + maxQ (ySmooth.take topFrame)) / 2
          < meanQ (sliceQ ySmooth r.1 (r.2 + 1))))).getLast? with
    | some lastRun => lastRun.1 + argmaxIdx (sliceQ ySmooth lastRun.1 (lastRun.2 + 1))
    | none =>
      (pyMaxBy (addressRuns velocity topFrame)
          (fun r => meanQ (sliceQ ySmooth r.1 (r.2 + 1)))).1
        + argmaxIdx (sliceQ ySmooth
            (pyMaxBy (addressRuns velocity topFrame)
              (fun r => meanQ (sliceQ ySmooth r.1 (r.2 + 1)))).1
            ((pyMaxBy (addressRuns velocity topFrame)
              (fun r => meanQ (sliceQ ySmooth r.1 (r.2 + 1)))).2 + 1))

/-- First index at or after a start where the value drops strictly below a
threshold: the settle-scanning loop of find_impact (lines 490-499). -/
def firstIdxBelow (l : List ℚ) (start : ℕ) (thr : ℚ) : Option ℕ :=
  (List.range' start (l.length - start)).find? (fun i => decide (getQ l i < thr))

/-- First index whose value is at or above a threshold: np.where(region >=
threshold)[0][0] in the y-crossing fallback of find_impact (lines 515-519). -/
def firstIdxAtLeast (l : List ℚ) (thr : ℚ) : Option ℕ :=
  (List.range l.length).find? (fun i => decide (thr ≤ getQ l i))

/-- The offset of the detected impact inside the search region (the source
returns top_frame plus this offset at every branch): strategy 1 settles the
smoothed directional velocity after its peak or takes the steepest
deceleration; strategy 2 takes the first crossing of 85 percent of the
address height refined over the next 5 frames; the last resort takes the
closest approach to the address height (detect_phases.py lines 471-544). -/
def findImpactOffset (searchRegion : List ℚ) (addressY : ℚ) : Option ℕ :=
  let s1 : Option ℕ :=
    if 1 < searchRegion.length then
      let dirVel := diffsQ searchRegion
      let dirVelSmooth := if 3 < dirVel.length then npConvSame dirVel (kernelQ 3) else dirVel
      let peakIdx := argmaxIdx dirVelSmooth
      let peakVel := getQ dirVelSmooth peakIdx
      if STILL_THRESHOLD * 2 < peakVel then
        match firstIdxBelow dirVelSmooth (peakIdx + 1) (peakVel * (15/100)) with
        | some i => some i
        | none =>
          if peakIdx + 2 < dirVelSmooth.length then
            some (peakIdx
              + argmaxIdx (diffsQ (dirVelSmooth.drop peakIdx) |>.map (fun q => -q)) + 1)
          else none
      else none
    else none
  match s1 with
  | some r => some r
  | none =>
    match firstIdxAtLeast searchRegion (addressY * (85/100)) with
    | some fc =>
      some (fc + argminIdx ((sliceQ searchRegion fc (min (fc + 5) searchRegion.length)).map
        (fun q => |q - addressY|)))
    | none => some (argminIdx (searchRegion.map (fun q => |q - addressY|)))

/-- find_impact (detect_phases.py lines 449-544): search within int(1.0 *
fps) frames after the top; none when the window is empty. -/
def find_impact (ySmooth _velocity : List ℚ) (topFrame : ℕ) (addressY fps : ℚ) :
    Option ℕ :=
  if (sliceQ ySmooth topFrame (min (topFrame + pyNat (1 * fps)) ySmooth.length)).isEmpty then
    none
  else
    (findImpactOffset
        (sliceQ ySmooth topFrame (min (topFrame + pyNat (1 * fps)) ySmooth.length))
        addressY).map (fun k => topFrame + k)

/-- The still-run midpoint search of find_follow_through
(detect_phases.py lines 583-609), returning an offset into the region. -/
def ftSettleLoop : List ℚ → ℕ → Option ℕ → Option ℕ
  | [], i, settleStart =>
    match settleStart with
    | some ss => if 3 ≤ i - ss then some (ss + (i - ss) / 2) else none
    | none => none
  | v :: rest, i, settleStart =>
    if v < STILL_THRESHOLD then
      ftSettleLoop rest (i + 1) (some (settleStart.getD i))
    else
      match settleStart with
      | some ss =>
        if 3 ≤ i - ss then some (ss + (i - ss) / 2)
        else ftSettleLoop rest (i + 1) none
      | none => ftSettleLoop rest (i + 1) none

/-- The offset of the follow-through inside the search region (the source
returns search_start plus this offset at every branch): the midpoint of the
first long still run, else the first local minimum, else the global minimum
(detect_phases.py lines 574-632). -/
def findFtOffset (searchRegion velRegion : List ℚ) : ℕ :=
  match ftSettleLoop velRegion 0 none with
  | some k => k
  | none =>
    match (List.range' 2 (searchRegion.length - 4)).filter (fun i =>
        getQ searchRegion i ≤ getQ searchRegion (i - 1)
          ∧ getQ searchRegion i ≤ getQ searchRegion (i + 1)) with
    | best :: _ => best
    | [] => argminIdx searchRegion

/-- find_follow_through (detect_phases.py lines 547-632): search from 0.3
seconds after impact (or from the frame right after impact if that gap
overshoots the window) up to 3 seconds after impact; none when even the
fallback start leaves an empty window.  The top frame and visibility
parameters of the source are unused there and omitted here. -/
def find_follow_through (ySmooth velocity : List ℚ) (impactFrame : ℕ) (fps : ℚ) :
    Option ℕ :=
  if min (impactFrame + pyNat (3 * fps)) ySmooth.length ≤ impactFrame + pyNat ((3/10) * fps)
      ∧ min (impactFrame + pyNat (3 * fps)) ySmooth.length ≤ impactFrame + 1 then
    none
  else
    (fun searchStart =>
      some (searchStart + findFtOffset
        (sliceQ ySmooth searchStart (min (impactFrame + pyNat (3 * fps)) ySmooth.length))
        (sliceQ velocity searchStart (min (impactFrame + pyNat (3 * fps)) ySmooth.length))))
    (if min (impactFrame + pyNat (3 * fps)) ySmooth.length ≤ impactFrame + pyNat ((3/10) * fps)
      then impactFrame + 1 else impactFrame + pyNat ((3/10) * fps))

/-! ## detect_phases.py: orchestrator, and the phase_detector.py wrapper -/

/-- A tracked landmark in one frame; only the fields the phase detector
reads (the y position and the visibility). -/
structure Landmark where
  y : ℚ
  visibility : ℚ
deriving DecidableEq, Repr

/-- One frame of the landmarks file. -/
structure LFrame where
  detected : Bool
  landmarks : List (String × Landmark)
deriving DecidableEq, Repr

/-- The landmarks file: summary.fps plus the frame list. -/
structure LData where
  fps : ℚ
  frames : List LFrame
deriving DecidableEq, Repr

/-- One detected phase: frame index and description. -/
structure PhaseInfo where
  frame : ℕ
  description : String
deriving DecidableEq, Repr

/-- The four detected phases. -/
structure PhaseSet where
  address : PhaseInfo
  top : PhaseInfo
  impact : PhaseInfo
  follow_through : PhaseInfo
deriving DecidableEq, Repr

/-- The avg_vis closure of select_primary_landmark (detect_phases.py
lines 119-124): mean visibility over frames where the landmark is present,
0 when there are none. -/
def avg_vis (frames : List LFrame) (name : String) : ℚ :=
  if (frames.filterMap (fun f =>
      if f.detected then (alookup name f.landmarks).map Landmark.visibility
      else none)).isEmpty then 0
  else meanQ (frames.filterMap (fun f =>
    if f.detected then (alookup name f.landmarks).map Landmark.visibility else none))

/-- select_primary_landmark (detect_phases.py lines 110-139) with the
default parameters: right_wrist if visible enough, else left_wrist if
visible enough, else whichever has the higher average visibility. -/
def select_primary_landmark (frames : List LFrame) : String :=
  if MIN_VISIBILITY ≤ avg_vis frames "right_wrist" then "right_wrist"
  else if MIN_VISIBILITY ≤ avg_vis frames "left_wrist" then "left_wrist"
  else if avg_vis frames "left_wrist" ≤ avg_vis frames "right_wrist" then "right_wrist"
  else "left_wrist"

/-- extract_hand_signal (detect_phases.py lines 46-69): per frame, the y
value when the landmark is present with visibility at least minVis (else
none, the NaN of the source) and the visibility (else 0).  The orchestrator
calls it with the hardcoded default min_visibility of 0.4. -/
def extract_hand_signal (frames : List LFrame) (name : String) (minVis : ℚ) :
    List (Option ℚ) × List ℚ :=
  (frames.map (fun f =>
      match (if f.detected then alookup name f.landmarks else none) with
      | some lm => if minVis ≤ lm.visibility then some lm.y else none
      | none => none),
   frames.map (fun f =>
      match (if f.detected then alookup name f.landmarks else none) with
      | some lm => if minVis ≤ lm.visibility then lm.visibility else 0
      | none => 0))

/-- The raw hand-height signal of the orchestrator (detect_phases.py
line 675). -/
def phaseYRaw (d : LData) : List (Option ℚ) :=
  (extract_hand_signal d.frames (select_primary_landmark d.frames) (2/5)).1

/-- The visibility signal of the orchestrator (detect_phases.py line 675). -/
def phaseVis (d : LData) : List ℚ :=
  (extract_hand_signal d.frames (select_primary_landmark d.frames) (2/5)).2

/-- The smoothed hand-height signal (detect_phases.py line 676);
meaningful when the raw signal has a valid frame. -/
def phaseYSmooth (d : LData) : List ℚ :=
  smoothListQ (interpNaN (phaseYRaw d)) SMOOTHING_WINDOW

/-- The rolling velocity signal (detect_phases.py line 677). -/
def phaseVelocity (d : LData) : List ℚ :=
  compute_velocity (phaseYSmooth d) VELOCITY_WINDOW

/-- The rough address height (detect_phases.py line 699): after
interpolation the smoothed signal has no NaN, so nanmax over the valid
values is the maximum of the whole smoothed signal. -/
def phaseRoughY (d : LData) : ℚ := maxQ (phaseYSmooth d)

/-- Step 3 of the orchestrator (detect_phases.py lines 702-705). -/
def phaseTop (d : LData) : Option ℕ :=
  find_top_of_backswing (phaseYSmooth d) (phaseVelocity d) (phaseRoughY d)
    d.fps (phaseVis d)

/-- Step 4 of the orchestrator (detect_phases.py lines 714-717). -/
def phaseAddress (d : LData) (topFrame : ℕ) : ℕ :=
  find_address (phaseYSmooth d) (phaseVelocity d) topFrame

/-- Step 5 of the orchestrator (detect_phases.py lines 722-724). -/
def phaseImpactRes (d : LData) (topFrame : ℕ) : Option ℕ :=
  find_impact (phaseYSmooth d) (phaseVelocity d) topFrame
    (getQ (phaseYSmooth d) (phaseAddress d topFrame)) d.fps

/-- Step 6 of the orchestrator (detect_phases.py lines 732-739). -/
def phaseFTRes (d : LData) (impactFrame : ℕ) : Option ℕ :=
  find_follow_through (phaseYSmooth d) (phaseVelocity d) impactFrame d.fps

/-- detect_phases (detect_phases.py lines 637-788).  The two sys.exit(1)
paths — no valid landmark data at all (line 698), and no top of backswing
(line 709, which also covers the uncaught crash on a signal too short for
the directional-velocity smoothing) — are the error result; otherwise a
full PhaseSet is returned, with the sentinel frame 0 standing in for an
impact or follow-through that was not found (lines 757, 761). -/
def detect_phases (d : LData) : Except Unit PhaseSet :=
  if (phaseYRaw d).all (fun o => o.isNone) then Except.error ()
  else
    match phaseTop d with
    | none => Except.error ()
    | some topFrame =>
      Except.ok
        { address := ⟨phaseAddress d topFrame,
            "Setup position, club grounded behind ball"⟩
          top := ⟨topFrame, "Top of backswing, hands at highest point"⟩
          impact := ⟨(phaseImpactRes d topFrame).getD 0,
            "Club at ball, hands returning to address height"⟩
          follow_through := ⟨(match phaseImpactRes d topFrame with
              | some im => phaseFTRes d im
              | none => none).getD 0,
            "Full extension post-impact, arms high"⟩ }

/-- min(l, key) for a nonempty list of naturals: the first element
attaining the minimal key, as Python's min keeps the earlier of two
equal-key elements. -/
def pyMinByNat : List ℕ → (ℕ → ℕ) → ℕ
  | [], _ => 0
  | x :: rest, key => rest.foldl (fun best y => if key y < key best then y else best) x

/-- The frame snap of detect_swing_phases (phase_detector.py line 87):
min(detected_frames, key=lambda f: abs(f - frame)).  detected_frames is a
Python set, so the minimum is taken in the set's iteration order, which for
small nonnegative ints is hash-table slot order (hash(n) = n, modulo the
table size), not insertion or numeric order; the order is passed here
explicitly as the list detectedIter. -/
def snapFrame (detectedIter : List ℕ) (frame : ℕ) : ℕ :=
  pyMinByNat detectedIter (fun f => max (f - frame) (frame - f))

/-- One phase of the snapping loop of detect_swing_phases
(phase_detector.py lines 84-92): frames already in the detected set, and
every frame when the set is empty, are left alone. -/
def snapPhase (detectedIter : List ℕ) (p : PhaseInfo) : PhaseInfo :=
  if p.frame ∈ detectedIter ∨ detectedIter.isEmpty then p
  else ⟨snapFrame detectedIter p.frame, p.description⟩

/-- The snapping pass of detect_swing_phases (phase_detector.py
lines 79-92) over the four phases. -/
def snap_phases (detectedIter : List ℕ) (p : PhaseSet) : PhaseSet :=
  { address := snapPhase detectedIter p.address
    top := snapPhase detectedIter p.top
    impact := snapPhase detectedIter p.impact
    follow_through := snapPhase detectedIter p.follow_through }

/-- A 4-frame clip at 1 fps with the right wrist fully visible at constant
height: the 1-frame impact search window forces impact = top. -/
def dC4 : LData :=
  ⟨1, List.replicate 4 ⟨true, [("right_wrist", ⟨1/2, 1⟩)]⟩⟩

/-- A 4-frame clip at 0.5 fps with the right wrist fully visible at
constant height: int(1.0 * fps) = 0 empties the impact search window, so
impact and follow-through fall back to the sentinel 0. -/
def dC7 : LData :=
  ⟨1/2, List.replicate 4 ⟨true, [("right_wrist", ⟨1/2, 1⟩)]⟩⟩

/-- The phases detected on dC4. -/
def pC4 : PhaseSet :=
  ⟨⟨0, "Setup position, club grounded behind ball"⟩,
   ⟨0, "Top of backswing, hands at highest point"⟩,
   ⟨0, "Club at ball, hands returning to address height"⟩,
   ⟨1, "Full extension post-impact, arms high"⟩⟩

/-- The phases detected on dC7: impact and follow-through carry the
sentinel 0. -/
def pC7 : PhaseSet :=
  ⟨⟨0, "Setup position, club grounded behind ball"⟩,
   ⟨0, "Top of backswing, hands at highest point"⟩,
   ⟨0, "Club at ball, hands returning to address height"⟩,
   ⟨0, "Full extension post-impact, arms high"⟩⟩

/-! ## Arithmetic lemmas about the helpers -/

theorem ratFloor_eq_intFloor (q : ℚ) : (Rat.floor q : ℤ) = ⌊q⌋ := rfl

theorem pymod_nonneg (a b : ℚ) (hb : 0 < b) : 0 ≤ pymod a b := by
  have h1 : ((⌊a / b⌋ : ℚ)) ≤ a / b := Int.floor_le _
  have h2 : ((⌊a / b⌋ : ℚ)) * b ≤ a := (le_div_iff₀ hb).mp h1
  unfold pymod
  rw [ratFloor_eq_intFloor]
  linarith [h2]

theorem pymod_lt (a b : ℚ) (hb : 0 < b) : pymod a b < b := by
  have h1 : a / b < (⌊a / b⌋ : ℚ) + 1 := Int.lt_floor_add_one _
  have h2 : a < ((⌊a / b⌋ : ℚ) + 1) * b := (div_lt_iff₀ hb).mp h1
  unfold pymod
  rw [ratFloor_eq_intFloor]
  linarith [h2]

theorem roundHalfEven_cases (q : ℚ) :
    roundHalfEven q = ⌊q⌋ ∨ roundHalfEven q = ⌊q⌋ + 1 := by
  unfold roundHalfEven
  rw [ratFloor_eq_intFloor]
  split_ifs <;> simp

theorem roundHalfEven_intCast (c : ℤ) : roundHalfEven ((c : ℚ)) = c := by
  unfold roundHalfEven
  rw [ratFloor_eq_intFloor, Int.floor_intCast]
  have h0 : (c : ℚ) - (c : ℚ) = 0 := by ring
  rw [h0]
  norm_num

theorem roundHalfEven_le_of_le_intCast (q : ℚ) (c : ℤ) (h : q ≤ c) :
    roundHalfEven q ≤ c := by
  have hf : ⌊q⌋ ≤ c := by
    have := Int.floor_le_floor h
    rwa [Int.floor_intCast] at this
  rcases roundHalfEven_cases q with he | he
  · omega
  · rcases lt_or_eq_of_le hf with hlt | heq
    · omega
    · have hq : (c : ℚ) ≤ q := by
        rw [← heq]
        exact Int.floor_le q
      have hqc : q = (c : ℚ) := le_antisymm h hq
      rw [hqc, roundHalfEven_intCast]

theorem intCast_le_roundHalfEven (q : ℚ) (c : ℤ) (h : (c : ℚ) ≤ q) :
    c ≤ roundHalfEven q := by
  have hf : c ≤ ⌊q⌋ := Int.le_floor.mpr h
  rcases roundHalfEven_cases q with he | he <;> omega

theorem roundHalfEven_mono {q1 q2 : ℚ} (h : q1 ≤ q2) :
    roundHalfEven q1 ≤ roundHalfEven q2 := by
  have hf : ⌊q1⌋ ≤ ⌊q2⌋ := Int.floor_le_floor h
  rcases lt_or_eq_of_le hf with hlt | heq
  · rcases roundHalfEven_cases q1 with h1 | h1 <;>
      rcases roundHalfEven_cases q2 with h2 | h2 <;> omega
  · have hfrac : q1 - (⌊q1⌋ : ℚ) ≤ q2 - (⌊q2⌋ : ℚ) := by
      rw [← heq]
      linarith
    unfold roundHalfEven
    rw [ratFloor_eq_intFloor, ratFloor_eq_intFloor, ← heq]
    split_ifs <;> first | omega | linarith


/-! ## C1: wraparound deltas in compute_deltas -/

theorem wrap_delta_eq (u r : ℚ) :
    wrap_delta u r = pyRound1 (pymod (u - r + 180) 360 - 180) := rfl

theorem wrap_delta_lower (u r : ℚ) : -180 ≤ wrap_delta u r := by
  have h0 : (0 : ℚ) ≤ pymod (u - r + 180) 360 := pymod_nonneg _ _ (by norm_num)
  have hc : ((-1800 : ℤ) : ℚ) ≤ 10 * (pymod (u - r + 180) 360 - 180) := by
    push_cast
    linarith
  have h1 : (-1800 : ℤ) ≤ roundHalfEven (10 * (pymod (u - r + 180) 360 - 180)) :=
    intCast_le_roundHalfEven _ _ hc
  have h2 : ((-1800 : ℤ) : ℚ) ≤ (roundHalfEven (10 * (pymod (u - r + 180) 360 - 180)) : ℚ) := by
    exact_mod_cast h1
  unfold wrap_delta pyRound1
  rw [le_div_iff₀ (by norm_num : (0:ℚ) < 10)]
  push_cast at h2 ⊢
  linarith

theorem wrap_delta_upper (u r : ℚ) : wrap_delta u r ≤ 180 := by
  have h0 : pymod (u - r + 180) 360 < 360 := pymod_lt _ _ (by norm_num)
  have hc : 10 * (pymod (u - r + 180) 360 - 180) ≤ ((1800 : ℤ) : ℚ) := by
    push_cast
    linarith
  have h1 : roundHalfEven (10 * (pymod (u - r + 180) 360 - 180)) ≤ (1800 : ℤ) :=
    roundHalfEven_le_of_le_intCast _ _ hc
  have h2 : (roundHalfEven (10 * (pymod (u - r + 180) 360 - 180)) : ℚ) ≤ ((1800 : ℤ) : ℚ) := by
    exact_mod_cast h1
  unfold wrap_delta pyRound1
  rw [div_le_iff₀ (by norm_num : (0:ℚ) < 10)]
  push_cast at h2 ⊢
  linarith

/-! Lookup lemmas used to trace a cell through compute_deltas. -/

theorem alookup_cons (k k' : String) (v : α) (m : List (String × α)) :
    alookup k ((k', v) :: m) = if k' = k then some v else alookup k m := by
  unfold alookup
  simp only [List.find?]
  by_cases h : k' = k <;> simp [h]

theorem alookup_filterMap_none {β : Type} (keys : List String) (F : String → Option β)
    (k : String) (hk : k ∉ keys) :
    alookup k (keys.filterMap (fun s => (F s).map (Prod.mk s))) = none := by
  induction keys with
  | nil => rfl
  | cons s rest ih =>
    have hks : k ≠ s := fun h => hk (h ▸ List.mem_cons_self s rest)
    have hkr : k ∉ rest := fun h => hk (List.mem_cons_of_mem s h)
    cases hF : F s with
    | none => simpa [List.filterMap_cons, hF] using ih hkr
    | some b =>
      have : (s :: rest).filterMap (fun s => (F s).map (Prod.mk s)) =
          (s, b) :: rest.filterMap (fun s => (F s).map (Prod.mk s)) := by
        simp [List.filterMap_cons, hF]
      rw [this, alookup_cons, if_neg (Ne.symm hks)]
      exact ih hkr

theorem alookup_filterMap_keys {β : Type} (keys : List String) (F : String → Option β)
    (k : String) (hnd : keys.Nodup) (hk : k ∈ keys) :
    alookup k (keys.filterMap (fun s => (F s).map (Prod.mk s))) = F k := by
  induction keys with
  | nil => cases hk
  | cons s rest ih =>
    by_cases hks : k = s
    · subst hks
      have hnotin : k ∉ rest := (List.nodup_cons.mp hnd).1
      cases hF : F k with
      | none =>
        simpa [List.filterMap_cons, hF] using alookup_filterMap_none rest F k hnotin
      | some b =>
        have : (k :: rest).filterMap (fun s => (F s).map (Prod.mk s)) =
            (k, b) :: rest.filterMap (fun s => (F s).map (Prod.mk s)) := by
          simp [List.filterMap_cons, hF]
        rw [this, alookup_cons, if_pos rfl]
    · have hkr : k ∈ rest := by
        cases hk with
        | head => exact absurd rfl hks
        | tail _ h => exact h
      have hnd' : rest.Nodup := (List.nodup_cons.mp hnd).2
      cases hF : F s with
      | none => simpa [List.filterMap_cons, hF] using ih hnd' hkr
      | some b =>
        have heq : (s :: rest).filterMap (fun s => (F s).map (Prod.mk s)) =
            (s, b) :: rest.filterMap (fun s => (F s).map (Prod.mk s)) := by
          simp [List.filterMap_cons, hF]
        rw [heq, alookup_cons, if_neg (Ne.symm hks)]
        exact ih hnd' hkr

theorem compute_deltas_phase_lookup (userA refA : List (String × ℚ)) (nm : String)
    (u r : ℚ) (hu : alookup nm userA = some u) (hr : alookup nm refA = some r)
    (hw : nm ∈ _WRAPAROUND_ANGLES) :
    alookup nm (compute_deltas_phase userA refA) = some (wrap_delta u r) := by
  induction userA with
  | nil => simp [alookup] at hu
  | cons c t ih =>
    obtain ⟨k, v⟩ := c
    rw [alookup_cons] at hu
    by_cases hks : k = nm
    · subst hks
      simp only [if_pos rfl] at hu
      obtain rfl : v = u := by injection hu
      unfold compute_deltas_phase
      rw [List.filterMap_cons]
      simp only [hr, if_pos hw]
      rw [alookup_cons]
      simp
    · simp only [if_neg hks] at hu
      unfold compute_deltas_phase
      rw [List.filterMap_cons]
      cases hkr : alookup k refA with
      | none =>
        simp only [hkr]
        exact ih hu
      | some r' =>
        simp only [hkr]
        by_cases hkw : k ∈ _WRAPAROUND_ANGLES <;>
          · simp only [hkw, if_pos, if_neg, reduceIte]
            rw [alookup_cons]
            simp only [if_neg hks]
            exact ih hu

/-- C1 (amended): for every pair of numeric user and reference values of an
atan2-based angle (shoulder_line_angle or hip_line_angle) present in both
inputs, compute_deltas returns the shortest-path angular difference
((user - reference + 180) mod 360) - 180 rounded to one decimal place; this
corrected delta always lies in the closed interval [-180, 180] (the original
claim said the half-open (-180, 180], which fails at user 0, reference 180),
and user 177 with reference -169 yields exactly -14.0. -/
theorem c1_wraparound_delta (user ref : AnglesData) (view ph nm : String)
    (uv rv : ViewAngles) (up rp : PhaseAngles) (u r : ℚ)
    (hview : view ∈ ["dtl", "fo"]) (hph : ph ∈ PHASE_KEYS)
    (hnm : nm ∈ _WRAPAROUND_ANGLES)
    (hu1 : alookup view user = some uv) (hr1 : alookup view ref = some rv)
    (hu2 : alookup ph uv = some up) (hr2 : alookup ph rv = some rp)
    (hu3 : alookup nm up.angles = some u) (hr3 : alookup nm rp.angles = some r) :
    deltaCell (compute_deltas user ref) view ph nm = some (wrap_delta u r)
    ∧ wrap_delta u r = pyRound1 (pymod (u - r + 180) 360 - 180)
    ∧ -180 ≤ wrap_delta u r ∧ wrap_delta u r ≤ 180
    ∧ wrap_delta 177 (-169) = -14 := by
  refine ⟨?_, rfl, wrap_delta_lower u r, wrap_delta_upper u r, by decide⟩
  have hv : alookup view (compute_deltas user ref) =
      some (PHASE_KEYS.filterMap (fun ph =>
        (match alookup ph uv, alookup ph rv with
         | some upx, some rpx => some (compute_deltas_phase upx.angles rpx.angles)
         | _, _ => none).map (Prod.mk ph))) := by
    unfold compute_deltas
    rw [alookup_filterMap_keys _ _ _ (by decide) hview]
    rw [hu1, hr1]
  have hp : alookup ph (PHASE_KEYS.filterMap (fun ph =>
      (match alookup ph uv, alookup ph rv with
       | some upx, some rpx => some (compute_deltas_phase upx.angles rpx.angles)
       | _, _ => none).map (Prod.mk ph))) =
      some (compute_deltas_phase up.angles rp.angles) := by
    rw [alookup_filterMap_keys _ _ _ (by decide) hph]
    rw [hu2, hr2]
  unfold deltaCell
  rw [hv]
  dsimp only
  rw [hp]
  exact compute_deltas_phase_lookup up.angles rp.angles nm u r hu3 hr3 hnm

/-- Witness for C1: the claim theorem applied at a concrete one-cell input
with user 177 and reference -169, yielding the cell value -14.0 inside the
admissible interval. -/
theorem c1_wraparound_delta_witness :
    deltaCell (compute_deltas
        [("fo", [("top", ⟨[("shoulder_line_angle", 177)]⟩)])]
        [("fo", [("top", ⟨[("shoulder_line_angle", -169)]⟩)])])
      "fo" "top" "shoulder_line_angle" = some (-14)
    ∧ -180 ≤ (-14 : ℚ) ∧ (-14 : ℚ) ≤ 180 := by
  have h := c1_wraparound_delta
    [("fo", [("top", ⟨[("shoulder_line_angle", 177)]⟩)])]
    [("fo", [("top", ⟨[("shoulder_line_angle", -169)]⟩)])]
    "fo" "top" "shoulder_line_angle"
    [("top", ⟨[("shoulder_line_angle", 177)]⟩)]
    [("top", ⟨[("shoulder_line_angle", -169)]⟩)]
    ⟨[("shoulder_line_angle", 177)]⟩ ⟨[("shoulder_line_angle", -169)]⟩
    177 (-169)
    (by decide) (by decide) (by decide)
    (by decide) (by decide) (by decide) (by decide) (by decide) (by decide)
  obtain ⟨hcell, -, -, -, hval⟩ := h
  rw [hval] at hcell
  exact ⟨hcell, by norm_num, by norm_num⟩

/-- Counterexample for C1 as stated: at user 0 and reference 180 (both legal
atan2 outputs) the corrected delta produced by compute_deltas is exactly
-180, which does not lie in the half-open interval (-180, 180] demanded by
the claim. -/
theorem c1_wraparound_delta_counterexample :
    deltaCell (compute_deltas
        [("fo", [("top", ⟨[("shoulder_line_angle", 0)]⟩)])]
        [("fo", [("top", ⟨[("shoulder_line_angle", 180)]⟩)])])
      "fo" "top" "shoulder_line_angle" = some (-180)
    ∧ ¬ (-180 < (-180 : ℚ)) := by
  constructor
  · decide
  · norm_num

/-! ## C3 and C10: compute_similarity_score -/

theorem angleWeight_pos (nm ph : String) : 0 < angleWeight nm ph := by
  have hall : ∀ p ∈ ANGLE_WEIGHTS, (0 : ℚ) < p.2 := by decide
  unfold angleWeight
  cases hfind : ANGLE_WEIGHTS.find? (fun p => decide (p.1 = (nm, ph))) with
  | none => norm_num
  | some p =>
    have hmem : p ∈ ANGLE_WEIGHTS := List.mem_of_find?_eq_some hfind
    simpa using hall p hmem

theorem maxDeltaFor_pos (nm ph : String) : 0 < maxDeltaFor nm ph := by
  unfold maxDeltaFor
  split_ifs
  · exact div_pos (by norm_num) (angleWeight_pos nm ph)
  · norm_num

theorem per_angle_score_nonneg (nm ph : String) (d : ℚ) :
    0 ≤ per_angle_score nm ph d := le_max_left 0 _

theorem per_angle_score_le_one (nm ph : String) (d : ℚ) :
    per_angle_score nm ph d ≤ 1 := by
  unfold per_angle_score
  have h : |d| / maxDeltaFor nm ph ≥ 0 :=
    div_nonneg (abs_nonneg d) (le_of_lt (maxDeltaFor_pos nm ph))
  have : 1 - |d| / maxDeltaFor nm ph ≤ 1 := by linarith
  exact max_le (by norm_num) this

theorem per_angle_score_anti (nm ph : String) {d1 d2 : ℚ} (h : |d1| ≤ |d2|) :
    per_angle_score nm ph d2 ≤ per_angle_score nm ph d1 := by
  unfold per_angle_score
  have hm := maxDeltaFor_pos nm ph
  have : 1 - |d2| / maxDeltaFor nm ph ≤ 1 - |d1| / maxDeltaFor nm ph := by
    have : |d1| / maxDeltaFor nm ph ≤ |d2| / maxDeltaFor nm ph := by gcongr
    linarith
  exact max_le_max le_rfl this

theorem per_angle_score_zero (nm ph : String) : per_angle_score nm ph 0 = 1 := by
  unfold per_angle_score
  simp

theorem per_angle_score_capped (nm ph : String) (d : ℚ)
    (h : maxDeltaFor nm ph ≤ |d|) : per_angle_score nm ph d = 0 := by
  unfold per_angle_score
  have hm := maxDeltaFor_pos nm ph
  have h1 : (1 : ℚ) ≤ |d| / maxDeltaFor nm ph := by
    rw [le_div_iff₀ hm]
    linarith
  have : 1 - |d| / maxDeltaFor nm ph ≤ 0 := by linarith
  exact max_eq_left this

theorem forall₂_flatMap {α β γ δ : Type} {R : α → β → Prop} {S : γ → δ → Prop}
    (f : α → List γ) (g : β → List δ) {l1 : List α} {l2 : List β}
    (h : List.Forall₂ R l1 l2)
    (hfg : ∀ a b, R a b → List.Forall₂ S (f a) (g b)) :
    List.Forall₂ S (l1.flatMap f) (l2.flatMap g) := by
  induction h with
  | nil => exact List.Forall₂.nil
  | cons hR hrest ih =>
    simp only [List.flatMap_cons]
    exact List.rel_append (hfg _ _ hR) ih

theorem forall₂_map_pair {α β : Type} {R : α → β → Prop} {S : ℚ → ℚ → Prop}
    (f : α → ℚ) (g : β → ℚ) {l1 : List α} {l2 : List β}
    (h : List.Forall₂ R l1 l2) (hfg : ∀ a b, R a b → S (f a) (g b)) :
    List.Forall₂ S (l1.map f) (l2.map g) := by
  induction h with
  | nil => exact List.Forall₂.nil
  | cons hR hrest ih =>
    simp only [List.map_cons]
    exact List.Forall₂.cons (hfg _ _ hR) ih

theorem similarity_scores_pointwise {d1 d2 : DeltasData} (h : DeltasAbsLe d1 d2) :
    List.Forall₂ (fun a b => b ≤ a) (similarity_scores d1) (similarity_scores d2) := by
  unfold similarity_scores
  refine forall₂_flatMap _ _ h (fun v1 v2 hv => ?_)
  obtain ⟨hveq, hvrest⟩ := hv
  refine forall₂_flatMap _ _ hvrest (fun p1 p2 hp => ?_)
  obtain ⟨hpeq, hprest⟩ := hp
  refine forall₂_map_pair _ _ hprest (fun c1 c2 hc => ?_)
  obtain ⟨hceq, hcle⟩ := hc
  rw [hceq, hpeq]
  exact per_angle_score_anti _ _ hcle

theorem forall₂_ge_sum_le {l1 l2 : List ℚ}
    (h : List.Forall₂ (fun a b => b ≤ a) l1 l2) : l2.sum ≤ l1.sum := by
  induction h with
  | nil => simp
  | cons hR hrest ih =>
    simp only [List.sum_cons]
    exact add_le_add hR ih

theorem list_sum_le_length (l : List ℚ) (h : ∀ x ∈ l, x ≤ 1) :
    l.sum ≤ (l.length : ℚ) := by
  induction l with
  | nil => simp
  | cons x t ih =>
    simp only [List.sum_cons, List.length_cons]
    push_cast
    have hx := h x (List.mem_cons_self x t)
    have ht := ih (fun y hy => h y (List.mem_cons_of_mem x hy))
    linarith

theorem list_sum_of_all_one (l : List ℚ) (h : ∀ x ∈ l, x = 1) :
    l.sum = (l.length : ℚ) := by
  induction l with
  | nil => simp
  | cons x t ih =>
    simp only [List.sum_cons, List.length_cons]
    push_cast
    rw [h x (List.mem_cons_self x t), ih (fun y hy => h y (List.mem_cons_of_mem x hy))]
    ring

theorem list_sum_of_all_zero (l : List ℚ) (h : ∀ x ∈ l, x = 0) : l.sum = 0 := by
  induction l with
  | nil => simp
  | cons x t ih =>
    simp only [List.sum_cons]
    rw [h x (List.mem_cons_self x t), ih (fun y hy => h y (List.mem_cons_of_mem x hy))]
    ring

theorem mem_similarity_scores {d : DeltasData} {x : ℚ} (hx : x ∈ similarity_scores d) :
    ∃ v ∈ d, ∃ p ∈ v.2, ∃ c ∈ p.2, x = per_angle_score c.1 p.1 c.2 := by
  unfold similarity_scores at hx
  obtain ⟨v, hv, hx⟩ := List.mem_flatMap.mp hx
  obtain ⟨p, hp, hx⟩ := List.mem_flatMap.mp hx
  obtain ⟨c, hc, hx⟩ := List.mem_map.mp hx
  exact ⟨v, hv, p, hp, c, hc, hx.symm⟩

theorem similarity_score_nonneg (d : DeltasData) : 0 ≤ compute_similarity_score d := by
  unfold compute_similarity_score
  split_ifs with hempty
  · norm_num
  · refine intCast_le_roundHalfEven _ 0 ?_
    push_cast
    have hsum : 0 ≤ (similarity_scores d).sum :=
      List.sum_nonneg (fun x hx => by
        obtain ⟨v, -, p, -, c, -, rfl⟩ := mem_similarity_scores hx
        exact per_angle_score_nonneg _ _ _)
    have hlen : (0:ℚ) ≤ ((similarity_scores d).length : ℚ) := by positivity
    positivity

theorem similarity_score_le_100 (d : DeltasData) : compute_similarity_score d ≤ 100 := by
  unfold compute_similarity_score
  split_ifs with hempty
  · norm_num
  · refine roundHalfEven_le_of_le_intCast _ 100 ?_
    push_cast
    have hne : similarity_scores d ≠ [] := by
      intro h
      rw [h] at hempty
      simp at hempty
    have hlenpos : (0:ℚ) < ((similarity_scores d).length : ℚ) := by
      have := List.length_pos.mpr hne
      exact_mod_cast this
    have hsum : (similarity_scores d).sum ≤ ((similarity_scores d).length : ℚ) :=
      list_sum_le_length _ (fun x hx => by
        obtain ⟨v, -, p, -, c, -, rfl⟩ := mem_similarity_scores hx
        exact per_angle_score_le_one _ _ _)
    rw [div_mul_eq_mul_div, div_le_iff₀ hlenpos]
    nlinarith [hsum, hlenpos]

/-- C3: compute_similarity_score is monotonically non-increasing in the
absolute value of each delta for fixed weights (cell-wise, over tables of
identical shape), its result always lies in [0, 100], it is exactly 100 when
the table is non-empty and every delta is zero, exactly 0 when every delta
is at or beyond its max_delta tolerance (45 for weight at least 1, 45
divided by the weight for downweighted angles), and 0 on an empty table. -/
theorem c3_similarity_score_properties :
    (∀ d1 d2 : DeltasData, DeltasAbsLe d1 d2 →
        compute_similarity_score d2 ≤ compute_similarity_score d1)
    ∧ (∀ d : DeltasData,
        0 ≤ compute_similarity_score d ∧ compute_similarity_score d ≤ 100)
    ∧ (∀ d : DeltasData, similarity_scores d ≠ [] →
        (∀ v ∈ d, ∀ p ∈ v.2, ∀ c ∈ p.2, c.2 = (0:ℚ)) →
        compute_similarity_score d = 100)
    ∧ (∀ d : DeltasData,
        (∀ v ∈ d, ∀ p ∈ v.2, ∀ c ∈ p.2, maxDeltaFor c.1 p.1 ≤ |c.2|) →
        compute_similarity_score d = 0)
    ∧ compute_similarity_score [] = 0 := by
  refine ⟨?_, fun d => ⟨similarity_score_nonneg d, similarity_score_le_100 d⟩, ?_, ?_, by decide⟩
  · intro d1 d2 h
    have hpt := similarity_scores_pointwise h
    have hlen := List.Forall₂.length_eq hpt
    unfold compute_similarity_score
    by_cases hempty : (similarity_scores d1).isEmpty
    · have h1 : similarity_scores d1 = [] := List.isEmpty_iff.mp hempty
      have h2 : similarity_scores d2 = [] := by
        have := hlen
        rw [h1] at this
        exact List.length_eq_zero.mp this.symm
      simp [h1, h2]
    · have h2ne : ¬ (similarity_scores d2).isEmpty := by
        intro hc
        have h2 : similarity_scores d2 = [] := List.isEmpty_iff.mp hc
        rw [h2] at hlen
        exact hempty (List.isEmpty_iff.mpr (List.length_eq_zero.mp hlen))
      rw [if_neg hempty, if_neg h2ne]
      refine roundHalfEven_mono ?_
      have hsum : (similarity_scores d2).sum ≤ (similarity_scores d1).sum :=
        forall₂_ge_sum_le hpt
      have hlenpos : (0:ℚ) < ((similarity_scores d1).length : ℚ) := by
        have hne : similarity_scores d1 ≠ [] := fun h => hempty (by simp [h])
        have := List.length_pos.mpr hne
        exact_mod_cast this
      rw [← hlen]
      gcongr
  · intro d hne hzero
    have hall1 : ∀ x ∈ similarity_scores d, x = 1 := fun x hx => by
      obtain ⟨v, hv, p, hp, c, hc, rfl⟩ := mem_similarity_scores hx
      rw [hzero v hv p hp c hc]
      exact per_angle_score_zero _ _
    unfold compute_similarity_score
    rw [if_neg (by simpa [List.isEmpty_iff] using hne)]
    have hsum := list_sum_of_all_one _ hall1
    have hlenpos : (0:ℚ) < ((similarity_scores d).length : ℚ) := by
      have := List.length_pos.mpr hne
      exact_mod_cast this
    rw [hsum, div_self (ne_of_gt hlenpos), one_mul]
    exact roundHalfEven_intCast 100
  · intro d hcap
    have hall0 : ∀ x ∈ similarity_scores d, x = 0 := fun x hx => by
      obtain ⟨v, hv, p, hp, c, hc, rfl⟩ := mem_similarity_scores hx
      exact per_angle_score_capped _ _ _ (hcap v hv p hp c hc)
    unfold compute_similarity_score
    split_ifs with hempty
    · rfl
    · rw [list_sum_of_all_zero _ hall0, zero_div, zero_mul]
      exact roundHalfEven_intCast 0

/-- Witness for C3: the claim theorem applied at concrete tables, checking
monotonicity between deltas 10 and 20, score 100 at delta 0, score 0 at
delta 45, and score 0 on the empty table. -/
theorem c3_similarity_score_witness :
    compute_similarity_score [("dtl", [("impact", [("left_elbow", 20)])])]
      ≤ compute_similarity_score [("dtl", [("impact", [("left_elbow", 10)])])]
    ∧ compute_similarity_score [("dtl", [("impact", [("left_elbow", 0)])])] = 100
    ∧ compute_similarity_score [("dtl", [("impact", [("left_elbow", 45)])])] = 0
    ∧ compute_similarity_score [] = 0 := by
  obtain ⟨hmono, _, h100, h0, hempty⟩ := c3_similarity_score_properties
  refine ⟨?_, ?_, ?_, hempty⟩
  · refine hmono _ _ ?_
    refine List.Forall₂.cons ⟨rfl, ?_⟩ List.Forall₂.nil
    refine List.Forall₂.cons ⟨rfl, ?_⟩ List.Forall₂.nil
    refine List.Forall₂.cons ⟨rfl, by norm_num⟩ List.Forall₂.nil
  · exact h100 _ (by decide) (by decide)
  · exact h0 _ (by decide)

/-- C10: compute_similarity_score aggregates every delta cell with no
filtering: the scores list has exactly one entry per cell of the table, and
at a concrete table holding only an excluded angle (shoulder_line_angle,
delta 20) and a below-significance-floor delta (left_elbow, delta 2) the
score is 76 (both cells contribute) even though rank_differences returns
nothing for the same table. -/
theorem c10_score_no_filtering :
    (∀ d : DeltasData, (similarity_scores d).length =
        (d.flatMap (fun v => v.2.flatMap (fun p => p.2))).length)
    ∧ rank_differences
        [("fo", [("top", [("shoulder_line_angle", 20), ("left_elbow", 2)])])]
        [("fo", [("top", ⟨[("shoulder_line_angle", 30), ("left_elbow", 92)]⟩)])]
        [("fo", [("top", ⟨[("shoulder_line_angle", 10), ("left_elbow", 90)]⟩)])] = []
    ∧ compute_similarity_score
        [("fo", [("top", [("shoulder_line_angle", 20), ("left_elbow", 2)])])] = 76 := by
  refine ⟨?_, by decide, by decide⟩
  intro d
  induction d with
  | nil => rfl
  | cons v rest ih =>
    simp only [similarity_scores, List.flatMap_cons, List.length_append] at ih ⊢
    congr 1
    induction v.2 with
    | nil => rfl
    | cons p prest ihp =>
      simp only [List.flatMap_cons, List.length_append, List.length_map] at ihp ⊢
      omega

/-! ## C2 and C6: rank_differences -/

theorem rank_differences_def (deltas : DeltasData) (user ref : AnglesData) :
    rank_differences deltas user ref =
      add_ranks (select_loop (if 1 < (deltas.map (·.1)).length then 2 else 3)
        (sortDiffs (all_diffs deltas user ref)) 0 (fun _ => 0)) 0 := rfl

theorem select_loop_sublist (m : ℕ) :
    ∀ (l : List DiffEntry) (c : ℕ) (f : String → ℕ),
      List.Sublist (select_loop m l c f) l := by
  intro l
  induction l with
  | nil => intro c f; exact List.Sublist.refl []
  | cons d rest ih =>
    intro c f
    unfold select_loop
    split_ifs
    · exact List.nil_sublist _
    · exact List.Sublist.cons d (ih c f)
    · exact List.Sublist.cons₂ d (ih (c + 1) _)

theorem select_loop_length (m : ℕ) :
    ∀ (l : List DiffEntry) (c : ℕ) (f : String → ℕ),
      (select_loop m l c f).length + c ≤ 3 ∨ (select_loop m l c f).length = 0 := by
  intro l
  induction l with
  | nil => intro c f; right; rfl
  | cons d rest ih =>
    intro c f
    unfold select_loop
    split_ifs with h1 h2
    · right; rfl
    · exact ih c f
    · rcases ih (c + 1) (fun v => if v = d.view then f v + 1 else f v) with h | h
      · left
        simp only [List.length_cons]
        omega
      · left
        simp only [List.length_cons, h]
        omega

theorem countP_view_cons_pos (L : List DiffEntry) (d : DiffEntry) (v : String)
    (hv : d.view = v) :
    (d :: L).countP (fun e => decide (e.view = v)) =
      L.countP (fun e => decide (e.view = v)) + 1 := by
  rw [List.countP_cons]
  simp [hv]

theorem countP_view_cons_neg (L : List DiffEntry) (d : DiffEntry) (v : String)
    (hv : ¬ d.view = v) :
    (d :: L).countP (fun e => decide (e.view = v)) =
      L.countP (fun e => decide (e.view = v)) := by
  rw [List.countP_cons]
  simp [hv]

theorem select_loop_view_count_zero (m : ℕ) (v : String) :
    ∀ (l : List DiffEntry) (c : ℕ) (f : String → ℕ), m ≤ f v →
      (select_loop m l c f).countP (fun e => decide (e.view = v)) = 0 := by
  intro l
  induction l with
  | nil => intro c f _; rfl
  | cons d rest ih =>
    intro c f hm
    unfold select_loop
    split_ifs with h1 h2
    · rfl
    · exact ih c f hm
    · by_cases hv : d.view = v
      · exfalso
        rw [hv] at h2
        omega
      · rw [countP_view_cons_neg _ _ _ hv]
        have hm' : m ≤ (if v = d.view then f v + 1 else f v) := by
          rw [if_neg (fun h => hv h.symm)]
          exact hm
        exact ih (c + 1) (fun w => if w = d.view then f w + 1 else f w) hm'

theorem select_loop_view_count_lt (m : ℕ) (v : String) :
    ∀ (l : List DiffEntry) (c : ℕ) (f : String → ℕ), f v < m →
      (select_loop m l c f).countP (fun e => decide (e.view = v)) + f v ≤ m := by
  intro l
  induction l with
  | nil =>
    intro c f h
    simp only [select_loop, List.countP_nil]
    omega
  | cons d rest ih =>
    intro c f hlt
    unfold select_loop
    split_ifs with h1 h2
    · simp only [List.countP_nil]
      omega
    · exact ih c f hlt
    · by_cases hv : d.view = v
      · rw [countP_view_cons_pos _ _ _ hv]
        by_cases hb : f v + 1 < m
        · have hb' : (if v = d.view then f v + 1 else f v) < m := by
            rw [if_pos hv.symm]
            exact hb
          have hrec := ih (c + 1) (fun w => if w = d.view then f w + 1 else f w) hb'
          simp only [] at hrec
          rw [if_pos hv.symm] at hrec
          omega
        · have hb' : m ≤ (if v = d.view then f v + 1 else f v) := by
            rw [if_pos hv.symm]
            omega
          have hz := select_loop_view_count_zero m v rest (c + 1)
            (fun w => if w = d.view then f w + 1 else f w) hb'
          omega
      · rw [countP_view_cons_neg _ _ _ hv]
        have hb' : (if v = d.view then f v + 1 else f v) < m := by
          rw [if_neg (fun h => hv h.symm)]
          exact hlt
        have hrec := ih (c + 1) (fun w => if w = d.view then f w + 1 else f w) hb'
        simp only [] at hrec
        rw [if_neg (fun h => hv h.symm)] at hrec
        omega

theorem mem_all_diffs {deltas : DeltasData} {user ref : AnglesData} {e : DiffEntry}
    (he : e ∈ all_diffs deltas user ref) :
    MIN_DELTA_DEGREES ≤ |e.delta|
    ∧ e.angle_name ∉ _EXCLUDE_ANGLES_FROM_RANKING
    ∧ e.weighted_abs = |e.delta| * angleWeight e.angle_name e.phase := by
  unfold all_diffs at he
  obtain ⟨vv, hv, he⟩ := List.mem_flatMap.mp he
  obtain ⟨pp, hp, he⟩ := List.mem_flatMap.mp he
  obtain ⟨cc, hc, heq⟩ := List.mem_filterMap.mp he
  by_cases hsig : |cc.2| < MIN_DELTA_DEGREES
  · rw [if_pos hsig] at heq
    cases heq
  rw [if_neg hsig] at heq
  by_cases hexc : cc.1 ∈ _EXCLUDE_ANGLES_FROM_RANKING
  · rw [if_pos hexc] at heq
    cases heq
  rw [if_neg hexc] at heq
  cases hu : get_angle_value user vv.1 pp.1 cc.1 with
  | none => rw [hu] at heq; cases heq
  | some uval =>
    cases hr : get_angle_value ref vv.1 pp.1 cc.1 with
    | none => rw [hu, hr] at heq; cases heq
    | some rval =>
      rw [hu, hr] at heq
      have heq' : (⟨cc.1, pp.1, vv.1, uval, rval, cc.2, |cc.2| * angleWeight cc.1 pp.1⟩
          : DiffEntry) = e := by injection heq
      subst heq'
      exact ⟨le_of_not_lt hsig, hexc, rfl⟩

theorem mem_add_ranks {e : RankedDiff} :
    ∀ {l : List DiffEntry} {i : ℕ}, e ∈ add_ranks l i →
      i < e.rank ∧ ∃ d ∈ l, fieldsEq d e := by
  intro l
  induction l with
  | nil => intro i h; cases h
  | cons d rest ih =>
    intro i h
    unfold add_ranks at h
    rcases List.mem_cons.mp h with heq | htail
    · subst heq
      exact ⟨Nat.lt_succ_self i, d, List.mem_cons_self d rest,
        rfl, rfl, rfl, rfl, rfl, rfl⟩
    · obtain ⟨hrank, dd, hd, hfe⟩ := ih htail
      exact ⟨Nat.lt_of_succ_lt hrank, dd, List.mem_cons_of_mem d hd, hfe⟩

theorem add_ranks_countP_view (v : String) :
    ∀ (l : List DiffEntry) (i : ℕ),
      (add_ranks l i).countP (fun e => decide (e.view = v)) =
        l.countP (fun d => decide (d.view = v)) := by
  intro l
  induction l with
  | nil => intro i; rfl
  | cons d rest ih =>
    intro i
    unfold add_ranks
    rw [List.countP_cons, List.countP_cons, ih]

theorem add_ranks_length : ∀ (l : List DiffEntry) (i : ℕ),
    (add_ranks l i).length = l.length := by
  intro l
  induction l with
  | nil => intro i; rfl
  | cons d rest ih =>
    intro i
    unfold add_ranks
    simp [ih]

theorem add_ranks_rank_mono :
    ∀ (l : List DiffEntry) (i : ℕ),
      (∀ d ∈ l, d.weighted_abs = |d.delta| * angleWeight d.angle_name d.phase) →
      l.Pairwise wGE →
      ∀ (eA eB : RankedDiff), eA ∈ add_ranks l i → eB ∈ add_ranks l i →
        |eB.delta| * angleWeight eB.angle_name eB.phase
          < |eA.delta| * angleWeight eA.angle_name eA.phase →
        eA.rank < eB.rank := by
  intro l
  induction l with
  | nil => intro i _ _ eA eB hA hB _; cases hA
  | cons d rest ih =>
    intro i hgood hpw eA eB hA hB hgt
    have hpw' := List.pairwise_cons.mp hpw
    unfold add_ranks at hA hB
    rcases List.mem_cons.mp hA with hAh | hAt
    · rcases List.mem_cons.mp hB with hBh | hBt
      · exfalso
        rw [hAh, hBh] at hgt
        exact lt_irrefl _ hgt
      · have hrank := (mem_add_ranks hBt).1
        rw [hAh]
        exact hrank
    · rcases List.mem_cons.mp hB with hBh | hBt
      · exfalso
        obtain ⟨-, dA, hdA, hfA⟩ := mem_add_ranks hAt
        have hle : dA.weighted_abs ≤ d.weighted_abs := hpw'.1 dA hdA
        have hgA : dA.weighted_abs = |dA.delta| * angleWeight dA.angle_name dA.phase :=
          hgood dA (List.mem_cons_of_mem d hdA)
        have hgd : d.weighted_abs = |d.delta| * angleWeight d.angle_name d.phase :=
          hgood d (List.mem_cons_self d rest)
        obtain ⟨hf1, hf2, -, -, -, hf6⟩ := hfA
        rw [hgA, hgd, hf1, hf2, hf6] at hle
        have : eB.angle_name = d.angle_name ∧ eB.phase = d.phase ∧ eB.delta = d.delta := by
          rw [hBh]
          exact ⟨rfl, rfl, rfl⟩
        obtain ⟨hb1, hb2, hb3⟩ := this
        rw [hb1, hb2, hb3] at hgt
        exact absurd hle (not_le.mpr hgt)
      · exact ih (i + 1) (fun x hx => hgood x (List.mem_cons_of_mem d hx)) hpw'.2
          eA eB hAt hBt hgt

theorem two_mem_length_gt_one {l : List String} {a b : String}
    (ha : a ∈ l) (hb : b ∈ l) (hne : a ≠ b) : 1 < l.length := by
  cases l with
  | nil => cases ha
  | cons x rest =>
    cases rest with
    | nil =>
      rcases List.mem_singleton.mp ha with rfl
      rcases List.mem_singleton.mp hb with rfl
      exact absurd rfl hne
    | cons y r2 => simp only [List.length_cons]; omega

/-- C2: the list returned by rank_differences has at most 3 entries, every
entry has an angle name outside the exclusion set and an absolute delta of
at least the 5 degree significance floor, and when the deltas table spans
two distinct views no single view contributes more than 2 entries. -/
theorem c2_rank_differences_bounds (deltas : DeltasData) (user ref : AnglesData) :
    (rank_differences deltas user ref).length ≤ 3
    ∧ (∀ e ∈ rank_differences deltas user ref,
        e.angle_name ∉ _EXCLUDE_ANGLES_FROM_RANKING ∧ MIN_DELTA_DEGREES ≤ |e.delta|)
    ∧ (∀ v1 v2, v1 ∈ deltas.map Prod.fst → v2 ∈ deltas.map Prod.fst → v1 ≠ v2 →
        ∀ v : String,
          ((rank_differences deltas user ref).countP (fun e => decide (e.view = v))) ≤ 2) := by
  rw [rank_differences_def]
  refine ⟨?_, ?_, ?_⟩
  · rw [add_ranks_length]
    rcases select_loop_length (if 1 < (deltas.map (·.1)).length then 2 else 3)
      (sortDiffs (all_diffs deltas user ref)) 0 (fun _ => 0) with h | h <;> omega
  · intro e he
    obtain ⟨-, d, hd, hfe⟩ := mem_add_ranks he
    have hd2 : d ∈ sortDiffs (all_diffs deltas user ref) :=
      (select_loop_sublist _ _ _ _).subset hd
    have hd3 : d ∈ all_diffs deltas user ref :=
      (List.perm_insertionSort wGE (all_diffs deltas user ref)).subset hd2
    obtain ⟨hsig, hexc, -⟩ := mem_all_diffs hd3
    obtain ⟨hf1, -, -, -, -, hf6⟩ := hfe
    rw [← hf1, ← hf6]
    exact ⟨hexc, hsig⟩
  · intro v1 v2 hv1 hv2 hne v
    have hlen : 1 < (deltas.map Prod.fst).length := two_mem_length_gt_one hv1 hv2 hne
    rw [if_pos hlen, add_ranks_countP_view]
    have := select_loop_view_count_lt 2 v (sortDiffs (all_diffs deltas user ref)) 0
      (fun _ => 0) (by simp)
    simpa using this

/-- Witness for C2: the claim theorem applied at a concrete two-view table,
instantiating the two-distinct-views hypothesis with dtl and fo. -/
theorem c2_rank_differences_bounds_witness :
    (rank_differences
        [("dtl", [("impact", [("spine_angle_dtl", 20)])]),
         ("fo", [("address", [("spine_tilt_fo", 25)])])]
        [("dtl", [("impact", ⟨[("spine_angle_dtl", 40)]⟩)]),
         ("fo", [("address", ⟨[("spine_tilt_fo", 50)]⟩)])]
        [("dtl", [("impact", ⟨[("spine_angle_dtl", 20)]⟩)]),
         ("fo", [("address", ⟨[("spine_tilt_fo", 25)]⟩)])]).length ≤ 3
    ∧ ((rank_differences
        [("dtl", [("impact", [("spine_angle_dtl", 20)])]),
         ("fo", [("address", [("spine_tilt_fo", 25)])])]
        [("dtl", [("impact", ⟨[("spine_angle_dtl", 40)]⟩)]),
         ("fo", [("address", ⟨[("spine_tilt_fo", 50)]⟩)])]
        [("dtl", [("impact", ⟨[("spine_angle_dtl", 20)]⟩)]),
         ("fo", [("address", ⟨[("spine_tilt_fo", 25)]⟩)])]).countP
          (fun e => decide (e.view = "dtl"))) ≤ 2 := by
  have h := c2_rank_differences_bounds
    [("dtl", [("impact", [("spine_angle_dtl", 20)])]),
     ("fo", [("address", [("spine_tilt_fo", 25)])])]
    [("dtl", [("impact", ⟨[("spine_angle_dtl", 40)]⟩)]),
     ("fo", [("address", ⟨[("spine_tilt_fo", 50)]⟩)])]
    [("dtl", [("impact", ⟨[("spine_angle_dtl", 20)]⟩)]),
     ("fo", [("address", ⟨[("spine_tilt_fo", 25)]⟩)])]
  exact ⟨h.1, h.2.2 "dtl" "fo" (by decide) (by decide) (by decide) "dtl"⟩

/-- C6 (amended): whenever two entries that both survive the significance
and exclusion filters also both appear in the returned ranking, one with
weight 1.5 and raw absolute delta a, the other with weight 1.0 and raw
absolute delta b, and 1.5 a is greater than b, the weighted entry receives
the smaller rank number.  (The original claim, which did not require the
unweighted entry and the weighted entry to both be ranked, fails when the
per-view cap drops the weighted entry; see the counterexample.) -/
theorem c6_weight_ordering (deltas : DeltasData) (user ref : AnglesData)
    (eA eB : RankedDiff)
    (hA : eA ∈ rank_differences deltas user ref)
    (hB : eB ∈ rank_differences deltas user ref)
    (hwA : angleWeight eA.angle_name eA.phase = 3/2)
    (hwB : angleWeight eB.angle_name eB.phase = 1)
    (h1 : |eB.delta| < 3/2 * |eA.delta|)
    (_h2 : |eA.delta| < |eB.delta|) :
    eA.rank < eB.rank := by
  rw [rank_differences_def] at hA hB
  have hperm := List.perm_insertionSort wGE (all_diffs deltas user ref)
  have hsorted : (sortDiffs (all_diffs deltas user ref)).Pairwise wGE :=
    List.sorted_insertionSort wGE (all_diffs deltas user ref)
  have hsub := select_loop_sublist (if 1 < (deltas.map (·.1)).length then 2 else 3)
    (sortDiffs (all_diffs deltas user ref)) 0 (fun _ => 0)
  have hgood : ∀ d ∈ select_loop (if 1 < (deltas.map (·.1)).length then 2 else 3)
      (sortDiffs (all_diffs deltas user ref)) 0 (fun _ => 0),
      d.weighted_abs = |d.delta| * angleWeight d.angle_name d.phase := by
    intro d hd
    exact (mem_all_diffs (hperm.subset (hsub.subset hd))).2.2
  have hpw : (select_loop (if 1 < (deltas.map (·.1)).length then 2 else 3)
      (sortDiffs (all_diffs deltas user ref)) 0 (fun _ => 0)).Pairwise wGE :=
    List.Pairwise.sublist hsub hsorted
  refine add_ranks_rank_mono _ 0 hgood hpw eA eB hA hB ?_
  rw [hwA, hwB]
  nlinarith [abs_nonneg eA.delta, abs_nonneg eB.delta]

/-- Witness for C6: at a concrete two-view table both the weighted and the
unweighted entry are ranked, and the theorem yields rank 1 for the weighted
spine angle over rank 2 for the unweighted spine tilt. -/
theorem c6_weight_ordering_witness :
    (⟨"spine_angle_dtl", "impact", "dtl", 40, 20, 20, 1⟩ : RankedDiff) ∈
      rank_differences
        [("dtl", [("impact", [("spine_angle_dtl", 20)])]),
         ("fo", [("address", [("spine_tilt_fo", 25)])])]
        [("dtl", [("impact", ⟨[("spine_angle_dtl", 40)]⟩)]),
         ("fo", [("address", ⟨[("spine_tilt_fo", 50)]⟩)])]
        [("dtl", [("impact", ⟨[("spine_angle_dtl", 20)]⟩)]),
         ("fo", [("address", ⟨[("spine_tilt_fo", 25)]⟩)])]
    ∧ (⟨"spine_tilt_fo", "address", "fo", 50, 25, 25, 2⟩ : RankedDiff) ∈
      rank_differences
        [("dtl", [("impact", [("spine_angle_dtl", 20)])]),
         ("fo", [("address", [("spine_tilt_fo", 25)])])]
        [("dtl", [("impact", ⟨[("spine_angle_dtl", 40)]⟩)]),
         ("fo", [("address", ⟨[("spine_tilt_fo", 50)]⟩)])]
        [("dtl", [("impact", ⟨[("spine_angle_dtl", 20)]⟩)]),
         ("fo", [("address", ⟨[("spine_tilt_fo", 25)]⟩)])]
    ∧ (⟨"spine_angle_dtl", "impact", "dtl", 40, 20, 20, 1⟩ : RankedDiff).rank
        < (⟨"spine_tilt_fo", "address", "fo", 50, 25, 25, 2⟩ : RankedDiff).rank := by
  refine ⟨by decide, by decide, ?_⟩
  exact c6_weight_ordering
    [("dtl", [("impact", [("spine_angle_dtl", 20)])]),
     ("fo", [("address", [("spine_tilt_fo", 25)])])]
    [("dtl", [("impact", ⟨[("spine_angle_dtl", 40)]⟩)]),
     ("fo", [("address", ⟨[("spine_tilt_fo", 50)]⟩)])]
    [("dtl", [("impact", ⟨[("spine_angle_dtl", 20)]⟩)]),
     ("fo", [("address", ⟨[("spine_tilt_fo", 25)]⟩)])]
    ⟨"spine_angle_dtl", "impact", "dtl", 40, 20, 20, 1⟩
    ⟨"spine_tilt_fo", "address", "fo", 50, 25, 25, 2⟩
    (by decide) (by decide) (by decide) (by decide) (by decide) (by decide)

/-- Counterexample for C6 as stated: a 1.5-weighted spine angle candidate
with raw delta 20 and an unweighted spine tilt candidate with raw delta 25
(so 1.5 times 20 exceeds 25 which exceeds 20) both survive the filters,
yet two larger dtl entries exhaust the 2-per-view cap, so the weighted
candidate is dropped from the ranking entirely while the unweighted one is
ranked third: the weighted entry is not ranked ahead of the unweighted. -/
theorem c6_weight_ordering_counterexample :
    (∃ dA ∈ all_diffs
        [("dtl", [("impact", [("left_elbow", 40), ("spine_angle_dtl", 20)]),
                  ("top", [("right_elbow", 40)])]),
         ("fo", [("address", [("spine_tilt_fo", 25)])])]
        [("dtl", [("impact", ⟨[("left_elbow", 80), ("spine_angle_dtl", 40)]⟩),
                  ("top", ⟨[("right_elbow", 90)]⟩)]),
         ("fo", [("address", ⟨[("spine_tilt_fo", 50)]⟩)])]
        [("dtl", [("impact", ⟨[("left_elbow", 40), ("spine_angle_dtl", 20)]⟩),
                  ("top", ⟨[("right_elbow", 50)]⟩)]),
         ("fo", [("address", ⟨[("spine_tilt_fo", 25)]⟩)])],
        dA.angle_name = "spine_angle_dtl" ∧ dA.phase = "impact" ∧ |dA.delta| = 20
        ∧ angleWeight dA.angle_name dA.phase = 3/2)
    ∧ (∃ dB ∈ all_diffs
        [("dtl", [("impact", [("left_elbow", 40), ("spine_angle_dtl", 20)]),
                  ("top", [("right_elbow", 40)])]),
         ("fo", [("address", [("spine_tilt_fo", 25)])])]
        [("dtl", [("impact", ⟨[("left_elbow", 80), ("spine_angle_dtl", 40)]⟩),
                  ("top", ⟨[("right_elbow", 90)]⟩)]),
         ("fo", [("address", ⟨[("spine_tilt_fo", 50)]⟩)])]
        [("dtl", [("impact", ⟨[("left_elbow", 40), ("spine_angle_dtl", 20)]⟩),
                  ("top", ⟨[("right_elbow", 50)]⟩)]),
         ("fo", [("address", ⟨[("spine_tilt_fo", 25)]⟩)])],
        dB.angle_name = "spine_tilt_fo" ∧ |dB.delta| = 25
        ∧ angleWeight dB.angle_name dB.phase = 1)
    ∧ (3/2 * 20 > (25:ℚ)) ∧ ((25:ℚ) > 20)
    ∧ (∀ e ∈ rank_differences
        [("dtl", [("impact", [("left_elbow", 40), ("spine_angle_dtl", 20)]),
                  ("top", [("right_elbow", 40)])]),
         ("fo", [("address", [("spine_tilt_fo", 25)])])]
        [("dtl", [("impact", ⟨[("left_elbow", 80), ("spine_angle_dtl", 40)]⟩),
                  ("top", ⟨[("right_elbow", 90)]⟩)]),
         ("fo", [("address", ⟨[("spine_tilt_fo", 50)]⟩)])]
        [("dtl", [("impact", ⟨[("left_elbow", 40), ("spine_angle_dtl", 20)]⟩),
                  ("top", ⟨[("right_elbow", 50)]⟩)]),
         ("fo", [("address", ⟨[("spine_tilt_fo", 25)]⟩)])],
        e.angle_name ≠ "spine_angle_dtl")
    ∧ (∃ e ∈ rank_differences
        [("dtl", [("impact", [("left_elbow", 40), ("spine_angle_dtl", 20)]),
                  ("top", [("right_elbow", 40)])]),
         ("fo", [("address", [("spine_tilt_fo", 25)])])]
        [("dtl", [("impact", ⟨[("left_elbow", 80), ("spine_angle_dtl", 40)]⟩),
                  ("top", ⟨[("right_elbow", 90)]⟩)]),
         ("fo", [("address", ⟨[("spine_tilt_fo", 50)]⟩)])]
        [("dtl", [("impact", ⟨[("left_elbow", 40), ("spine_angle_dtl", 20)]⟩),
                  ("top", ⟨[("right_elbow", 50)]⟩)]),
         ("fo", [("address", ⟨[("spine_tilt_fo", 25)]⟩)])],
        e.angle_name = "spine_tilt_fo" ∧ e.rank = 3) := by
  refine ⟨by decide, by decide, by norm_num, by norm_num, by decide, by decide⟩

/-! ## C5: first-match rule selection -/

theorem find_first_index {α : Type} (p : α → Bool) :
    ∀ (l : List α) (j : ℕ) (hj : j < l.length), p (l.get ⟨j, hj⟩) = true →
      ∃ i, ∃ hi : i < l.length, i ≤ j ∧ p (l.get ⟨i, hi⟩) = true
        ∧ (∀ k (hk : k < i), p (l.get ⟨k, Nat.lt_trans hk hi⟩) = false)
        ∧ l.find? p = some (l.get ⟨i, hi⟩) := by
  intro l
  induction l with
  | nil => intro j hj; exact absurd hj (Nat.not_lt_zero j)
  | cons a rest ih =>
    intro j hj hp
    by_cases hpa : p a = true
    · refine ⟨0, Nat.succ_pos _, Nat.zero_le j, hpa, ?_, ?_⟩
      · intro k hk
        exact absurd hk (Nat.not_lt_zero k)
      · rw [List.find?_cons_of_pos _ hpa]
        rfl
    · cases j with
      | zero => exact absurd hp hpa
      | succ j' =>
        have hj' : j' < rest.length := Nat.lt_of_succ_lt_succ hj
        obtain ⟨i, hi, hij, hpi, hmin, hfind⟩ := ih j' hj' hp
        refine ⟨i + 1, Nat.succ_lt_succ hi, Nat.succ_le_succ hij, hpi, ?_, ?_⟩
        · intro k hk
          cases k with
          | zero => simpa using hpa
          | succ k' => exact hmin k' (Nat.lt_of_succ_lt_succ hk)
        · rw [List.find?_cons_of_neg _ hpa]
          exact hfind

/-- C5: feedback rule matching is first-match-wins in catalog declaration
order: for every ranked difference matched by some rule at index j, the
enriched entry that generate_feedback returns for it carries the severity,
title, rendered description and coaching tip of the rule at the least
matching index i (so i is at most j, and when two rules both match, the
catalog-earlier one wins). -/
theorem c5_first_match_wins (diffs : List RankedDiff) (user ref : AnglesData)
    (diff : RankedDiff) (j : ℕ) (hj : j < FAULT_RULES.length)
    (hmem : diff ∈ diffs)
    (happ : applies_to (FAULT_RULES.get ⟨j, hj⟩) diff = true) :
    ∃ i, ∃ hi : i < FAULT_RULES.length, i ≤ j
      ∧ applies_to (FAULT_RULES.get ⟨i, hi⟩) diff = true
      ∧ (∀ k (hk : k < i),
          applies_to (FAULT_RULES.get ⟨k, Nat.lt_trans hk hi⟩) diff = false)
      ∧ enrich_one diff = mkEnriched diff (FAULT_RULES.get ⟨i, hi⟩)
      ∧ mkEnriched diff (FAULT_RULES.get ⟨i, hi⟩) ∈ generate_feedback diffs user ref := by
  obtain ⟨i, hi, hij, hpi, hmin, hfind⟩ :=
    find_first_index (fun rule => applies_to rule diff) FAULT_RULES j hj happ
  have henr : enrich_one diff = mkEnriched diff (FAULT_RULES.get ⟨i, hi⟩) := by
    unfold enrich_one
    rw [hfind]
  refine ⟨i, hi, hij, hpi, hmin, henr, ?_⟩
  rw [← henr]
  exact List.mem_map_of_mem enrich_one hmem

/-- Witness for C5: rule index 2 (Early Extension, spine_angle_dtl at
impact, dtl, max_delta 6) matches a ranked spine-angle difference of +11.3
degrees, and the claim theorem applied there yields the first matching
catalog rule for the enriched entry. -/
theorem c5_first_match_wins_witness :
    applies_to (FAULT_RULES.get ⟨2, by decide⟩)
      ⟨"spine_angle_dtl", "impact", "dtl", 30, 187/10, 113/10, 1⟩ = true
    ∧ ∃ i, ∃ hi : i < FAULT_RULES.length, i ≤ 2
      ∧ applies_to (FAULT_RULES.get ⟨i, hi⟩)
          ⟨"spine_angle_dtl", "impact", "dtl", 30, 187/10, 113/10, 1⟩ = true
      ∧ (∀ k (hk : k < i),
          applies_to (FAULT_RULES.get ⟨k, Nat.lt_trans hk hi⟩)
            ⟨"spine_angle_dtl", "impact", "dtl", 30, 187/10, 113/10, 1⟩ = false)
      ∧ enrich_one ⟨"spine_angle_dtl", "impact", "dtl", 30, 187/10, 113/10, 1⟩ =
          mkEnriched ⟨"spine_angle_dtl", "impact", "dtl", 30, 187/10, 113/10, 1⟩
            (FAULT_RULES.get ⟨i, hi⟩)
      ∧ mkEnriched ⟨"spine_angle_dtl", "impact", "dtl", 30, 187/10, 113/10, 1⟩
            (FAULT_RULES.get ⟨i, hi⟩) ∈
          generate_feedback [⟨"spine_angle_dtl", "impact", "dtl", 30, 187/10, 113/10, 1⟩]
            [] [] :=
  ⟨by decide,
   c5_first_match_wins [⟨"spine_angle_dtl", "impact", "dtl", 30, 187/10, 113/10, 1⟩]
     [] [] ⟨"spine_angle_dtl", "impact", "dtl", 30, 187/10, 113/10, 1⟩ 2
     (by decide) (by decide) (by decide)⟩

/-- C9: angle_at_joint is total and never leaves the arccosine domain: for
every input points (degenerate ones included) the epsilon-guarded norm
product is strictly positive, the clamped normalized dot product lies in
[-1, 1], and the returned angle is a defined real value in [0, 180]
degrees. -/
theorem c9_angle_at_joint_total {n : ℕ} (a b c : Fin n → ℝ) :
    0 < npNorm (a - b) * npNorm (c - b) + 1/100000000
    ∧ -1 ≤ npClip (npDot (a - b) (c - b) /
        (npNorm (a - b) * npNorm (c - b) + 1/100000000)) (-1) 1
    ∧ npClip (npDot (a - b) (c - b) /
        (npNorm (a - b) * npNorm (c - b) + 1/100000000)) (-1) 1 ≤ 1
    ∧ 0 ≤ angle_at_joint a b c ∧ angle_at_joint a b c ≤ 180 := by
  have hn1 : 0 ≤ npNorm (a - b) := Real.sqrt_nonneg _
  have hn2 : 0 ≤ npNorm (c - b) := Real.sqrt_nonneg _
  have hpos : 0 < npNorm (a - b) * npNorm (c - b) + 1/100000000 := by
    have := mul_nonneg hn1 hn2
    linarith
  refine ⟨hpos, ?_, ?_, ?_, ?_⟩
  · exact le_min (by norm_num) (le_max_left _ _)
  · exact min_le_left _ _
  · unfold angle_at_joint angle_between_vectors
    have harc : 0 ≤ Real.arccos (npClip (npDot (a - b) (c - b) /
        (npNorm (a - b) * npNorm (c - b) + 1/100000000)) (-1) 1) :=
      Real.arccos_nonneg _
    have hpi := Real.pi_pos
    positivity
  · unfold angle_at_joint angle_between_vectors
    have harc : Real.arccos (npClip (npDot (a - b) (c - b) /
        (npNorm (a - b) * npNorm (c - b) + 1/100000000)) (-1) 1) ≤ Real.pi :=
      Real.arccos_le_pi _
    have hpi := Real.pi_pos
    rw [div_le_iff₀ hpi]
    nlinarith

/-! ## Lemmas about the phase finders -/

theorem argmaxAux_lt (l : List ℚ) : ∀ i bi bv, bi < i → argmaxAux l i bi bv < i + l.length := by
  induction l with
  | nil => intro i bi bv h; simpa [argmaxAux] using h
  | cons x rest ih =>
    intro i bi bv h
    simp only [argmaxAux]
    split
    · have := ih (i + 1) i x (Nat.lt_succ_self i)
      simp only [List.length_cons]
      omega
    · have := ih (i + 1) bi bv (Nat.lt_succ_of_lt h)
      simp only [List.length_cons]
      omega

theorem argmaxIdx_le (l : List ℚ) : argmaxIdx l ≤ l.length - 1 := by
  cases l with
  | nil => simp [argmaxIdx]
  | cons x rest =>
    have := argmaxAux_lt rest 1 0 x (by omega)
    simp only [argmaxIdx, List.length_cons]
    omega

theorem sliceQ_length_le (l : List ℚ) (a b : ℕ) : (sliceQ l a b).length ≤ b - a := by
  simp only [sliceQ, List.length_take]
  omega

theorem run_pick_le (y : List ℚ) (a b t : ℕ) (h1 : a ≤ b) (h2 : b + 1 ≤ t) :
    a + argmaxIdx (sliceQ y a (b + 1)) ≤ t := by
  have h3 := argmaxIdx_le (sliceQ y a (b + 1))
  have h4 := sliceQ_length_le y a (b + 1)
  omega

theorem runsAux_mem_bounds (m : ℕ) (hm : 1 ≤ m) (l : List Bool) :
    ∀ (i : ℕ) (rS : Option ℕ) (p : ℕ × ℕ),
      p ∈ runsAux m l i rS → (∀ rs, rS = some rs → rs ≤ i) →
      p.1 ≤ p.2 ∧ p.2 + 1 ≤ i + l.length := by
  induction l with
  | nil =>
    intro i rS p hp hrs
    cases rS with
    | none => simp [runsAux] at hp
    | some rs =>
      simp only [runsAux] at hp
      split at hp
      · next hcond =>
        rw [List.mem_singleton] at hp
        have h1 := hrs rs rfl
        subst hp
        simp only [List.length_nil]
        omega
      · simp at hp
  | cons b rest ih =>
    intro i rS p hp hrs
    cases rS with
    | none =>
      simp only [runsAux] at hp
      split at hp
      · have hres := ih (i + 1) _ p hp
          (by intro rs h; injection h with h; subst h; simp)
        simp only [List.length_cons]
        omega
      · have hres := ih (i + 1) none p hp (by intro rs' h; simp at h)
        simp only [List.length_cons]
        omega
    | some rs =>
      have hrs1 : rs ≤ i := hrs rs rfl
      simp only [runsAux] at hp
      split at hp
      · have hres := ih (i + 1) _ p hp
          (by intro rs' h; injection h with h; subst h; simp only [Option.getD_some]; omega)
        simp only [List.length_cons]
        omega
      · split at hp
        · rename_i hcond
          rcases List.mem_cons.mp hp with hp1 | hp1
          · subst hp1
            simp only [List.length_cons]
            omega
          · have hres := ih (i + 1) none p hp1 (by intro rs' h; simp at h)
            simp only [List.length_cons]
            omega
        · have hres := ih (i + 1) none p hp (by intro rs' h; simp at h)
          simp only [List.length_cons]
          omega

theorem addressRuns_mem_bounds (v : List ℚ) (t : ℕ) (p : ℕ × ℕ)
    (hp : p ∈ addressRuns v t) : p.1 ≤ p.2 ∧ p.2 + 1 ≤ t := by
  have hlen : (((v.take t).map (fun q => decide (q < STILL_THRESHOLD))).length) ≤ t := by
    simp only [List.length_map, List.length_take]
    omega
  have := runsAux_mem_bounds MIN_STILL_DURATION (by norm_num [MIN_STILL_DURATION])
    _ 0 none p hp (by intro rs h; simp at h)
  omega

theorem mem_of_getLastQ {α : Type} (l : List α) (a : α) (h : l.getLast? = some a) :
    a ∈ l := by
  induction l with
  | nil => simp [List.getLast?] at h
  | cons x rest ih =>
    cases rest with
    | nil =>
      simp only [List.getLast?_singleton, Option.some.injEq] at h
      simp [h]
    | cons y ys =>
      rw [List.getLast?_cons_cons] at h
      exact List.mem_cons_of_mem x (ih h)

theorem foldl_choice_mem {α : Type} (f : α → α → α) (hf : ∀ a b, f a b = a ∨ f a b = b) :
    ∀ (l : List α) (x : α), l.foldl f x ∈ x :: l := by
  intro l
  induction l with
  | nil => intro x; simp
  | cons y ys ih =>
    intro x
    rw [List.foldl_cons]
    have h := ih (f x y)
    rcases List.mem_cons.mp h with h2 | h2
    · rcases hf x y with h1 | h1 <;> rw [h2, h1] <;> simp
    · exact List.mem_cons_of_mem _ (List.mem_cons_of_mem _ h2)

theorem pyMaxBy_mem (l : List (ℕ × ℕ)) (key : ℕ × ℕ → ℚ) (h : l ≠ []) :
    pyMaxBy l key ∈ l := by
  cases l with
  | nil => exact absurd rfl h
  | cons x rest =>
    have := foldl_choice_mem (fun best y => if key best < key y then y else best)
      (fun a b => by dsimp only; split; exacts [Or.inr rfl, Or.inl rfl]) rest x
    simpa [pyMaxBy] using this

theorem find_address_le (y v : List ℚ) (t : ℕ) : find_address y v t ≤ t := by
  unfold find_address
  split
  · exact Nat.zero_le t
  next hne =>
    split
    next lastRun heq =>
      have hmem : lastRun ∈ addressRuns v t :=
        (List.mem_filter.mp (mem_of_getLastQ _ _ heq)).1
      have hb := addressRuns_mem_bounds v t lastRun hmem
      exact run_pick_le y lastRun.1 lastRun.2 t hb.1 hb.2
    next heq =>
      have hne2 : addressRuns v t ≠ [] := by
        intro hh
        rw [hh] at hne
        simp at hne
      have hmem := pyMaxBy_mem (addressRuns v t)
        (fun r => meanQ (sliceQ y r.1 (r.2 + 1))) hne2
      have hb := addressRuns_mem_bounds v t _ hmem
      exact run_pick_le y _ _ t hb.1 hb.2

theorem find_impact_ge (y v : List ℚ) (t : ℕ) (a fps : ℚ) (i : ℕ)
    (h : find_impact y v t a fps = some i) : t ≤ i := by
  unfold find_impact at h
  split at h
  · simp at h
  · obtain ⟨k, _, hk⟩ := Option.map_eq_some'.mp h
    omega

theorem find_follow_through_ge (y v : List ℚ) (im : ℕ) (fps : ℚ) (ft : ℕ)
    (h : find_follow_through y v im fps = some ft) : im ≤ ft := by
  unfold find_follow_through at h
  split at h
  · simp at h
  · simp only [] at h
    split at h
    · have := Option.some.inj h
      omega
    · have := Option.some.inj h
      omega

/-! ## Lemmas about the wrapper snap -/

theorem foldl_min_le (key : ℕ → ℕ) :
    ∀ (l : List ℕ) (x : ℕ),
      key (l.foldl (fun best y => if key y < key best then y else best) x) ≤ key x
      ∧ ∀ y ∈ l, key (l.foldl (fun best y => if key y < key best then y else best) x) ≤ key y := by
  intro l
  induction l with
  | nil => intro x; simp
  | cons y ys ih =>
    intro x
    rw [List.foldl_cons]
    have h := ih (if key y < key x then y else x)
    constructor
    · refine le_trans h.1 ?_
      split <;> omega
    · intro z hz
      rcases List.mem_cons.mp hz with hz1 | hz1
      · subst hz1
        refine le_trans h.1 ?_
        split <;> omega
      · exact h.2 z hz1

theorem foldl_min_first (key : ℕ → ℕ) :
    ∀ (l : List ℕ) (x : ℕ),
      (x :: l).find? (fun y => decide (key y ≤
          key (l.foldl (fun best y => if key y < key best then y else best) x)))
        = some (l.foldl (fun best y => if key y < key best then y else best) x) := by
  intro l
  induction l with
  | nil => intro x; simp [List.find?]
  | cons y ys ih =>
    intro x
    rw [List.foldl_cons]
    by_cases hxy : key y < key x
    · rw [if_pos hxy]
      have hR : key (ys.foldl (fun best y => if key y < key best then y else best) y) ≤ key y :=
        (foldl_min_le key ys y).1
      rw [List.find?_cons_of_neg _ (by simp; omega)]
      exact ih y
    · rw [if_neg hxy]
      have hihx := ih x
      by_cases hx : key x ≤ key (ys.foldl (fun best y => if key y < key best then y else best) x)
      · rw [List.find?_cons_of_pos _ (by simp [hx])] at hihx
        have hxR := Option.some.inj hihx
        rw [List.find?_cons_of_pos _ (by simp [hx])]
        exact congrArg some hxR
      · rw [List.find?_cons_of_neg _ (by simp [hx])] at hihx
        rw [List.find?_cons_of_neg _ (by simp [hx])]
        have hyR : ¬ key y ≤ key (ys.foldl (fun best y => if key y < key best then y else best) x) := by
          intro hc
          exact hx (le_trans (le_of_not_lt hxy) hc)
        rw [List.find?_cons_of_neg _ (by simp [hyR])]
        exact hihx

theorem pyMinByNat_spec (l : List ℕ) (key : ℕ → ℕ) (h : l ≠ []) :
    pyMinByNat l key ∈ l ∧ (∀ y ∈ l, key (pyMinByNat l key) ≤ key y)
    ∧ l.find? (fun y => decide (key y ≤ key (pyMinByNat l key))) = some (pyMinByNat l key) := by
  cases l with
  | nil => exact absurd rfl h
  | cons x rest =>
    have hmem := foldl_choice_mem (fun best y => if key y < key best then y else best)
      (fun a b => by dsimp only; split; exacts [Or.inr rfl, Or.inl rfl]) rest x
    have hle := foldl_min_le key rest x
    have hfst := foldl_min_first key rest x
    refine ⟨hmem, ?_, hfst⟩
    intro z hz
    rcases List.mem_cons.mp hz with hz1 | hz1
    · subst hz1; exact hle.1
    · exact hle.2 z hz1

/-- C4: on every landmark input on which detect_phases succeeds, the
returned frames satisfy address ≤ top, and — whenever impact respectively
follow-through are actually found — top ≤ impact and impact ≤
follow_through.  The spec claims the strict top < impact; that is refuted
by the counterexample, where impact is found at the top frame itself. -/
theorem c4_phase_ordering (d : LData) (p : PhaseSet)
    (h : detect_phases d = Except.ok p) :
    p.address.frame ≤ p.top.frame
    ∧ (∀ i, phaseImpactRes d p.top.frame = some i →
        p.impact.frame = i ∧ p.top.frame ≤ p.impact.frame)
    ∧ (∀ i ft, phaseImpactRes d p.top.frame = some i →
        phaseFTRes d i = some ft →
        p.follow_through.frame = ft ∧ p.impact.frame ≤ p.follow_through.frame) := by
  unfold detect_phases at h
  split at h
  · simp at h
  · cases htop : phaseTop d with
    | none => rw [htop] at h; simp at h
    | some t =>
      rw [htop] at h
      simp only [Except.ok.injEq] at h
      subst h
      refine ⟨find_address_le _ _ _, ?_, ?_⟩
      · intro i hi
        have hi2 : find_impact (phaseYSmooth d) (phaseVelocity d) t
            (getQ (phaseYSmooth d) (phaseAddress d t)) d.fps = some i := hi
        constructor
        · show (phaseImpactRes d t).getD 0 = i
          have hi3 : phaseImpactRes d t = some i := hi
          rw [hi3]
          rfl
        · show (t : ℕ) ≤ (phaseImpactRes d t).getD 0
          have hi3 : phaseImpactRes d t = some i := hi
          rw [hi3]
          exact find_impact_ge _ _ _ _ _ _ hi2
      · intro i ft hi hft
        have hi3 : phaseImpactRes d t = some i := hi
        have hft2 : find_follow_through (phaseYSmooth d) (phaseVelocity d) i d.fps
            = some ft := hft
        constructor
        · show (match phaseImpactRes d t with
            | some im => phaseFTRes d im
            | none => none).getD 0 = ft
          rw [hi3]
          show (phaseFTRes d i).getD 0 = ft
          rw [hft]
          rfl
        · show (phaseImpactRes d t).getD 0 ≤ (match phaseImpactRes d t with
            | some im => phaseFTRes d im
            | none => none).getD 0
          rw [hi3]
          show i ≤ (phaseFTRes d i).getD 0
          rw [hft]
          exact find_follow_through_ge _ _ _ _ _ hft2

/-- Witness: on the concrete 4-frame 1-fps clip dC4 the theorem's
hypotheses hold and the ordering conclusions follow. -/
theorem c4_phase_ordering_witness :
    detect_phases dC4 = Except.ok pC4
    ∧ pC4.address.frame ≤ pC4.top.frame
    ∧ phaseImpactRes dC4 pC4.top.frame = some 0
    ∧ pC4.impact.frame = 0 ∧ pC4.top.frame ≤ pC4.impact.frame
    ∧ phaseFTRes dC4 0 = some 1
    ∧ pC4.follow_through.frame = 1 ∧ pC4.impact.frame ≤ pC4.follow_through.frame := by
  refine ⟨by rfl, (c4_phase_ordering dC4 pC4 (by rfl)).1, by decide, ?_, ?_, by decide, ?_, ?_⟩
  · exact ((c4_phase_ordering dC4 pC4 (by rfl)).2.1 0 (by decide)).1
  · exact ((c4_phase_ordering dC4 pC4 (by rfl)).2.1 0 (by decide)).2
  · exact ((c4_phase_ordering dC4 pC4 (by rfl)).2.2 0 1 (by decide) (by decide)).1
  · exact ((c4_phase_ordering dC4 pC4 (by rfl)).2.2 0 1 (by decide) (by decide)).2

/-- Counterexample to the strict inequality of the spec: on dC4 the
detection succeeds, impact IS found (no sentinel is involved), yet the
impact frame equals the top frame, so top.frame < impact.frame fails. -/
theorem c4_phase_ordering_counterexample :
    detect_phases dC4 = Except.ok pC4
    ∧ phaseImpactRes dC4 pC4.top.frame = some pC4.impact.frame
    ∧ ¬ pC4.top.frame < pC4.impact.frame :=
  ⟨by rfl, by decide, by decide⟩

/-- C7: phase detection errors exactly when the signal has no valid frame
at all or no top of backswing is found; on success it always returns a
complete PhaseSet, in which an impact or follow-through that could not be
found degrades gracefully to the sentinel frame 0 instead of aborting. -/
theorem c7_graceful_degradation (d : LData) :
    (detect_phases d = Except.error () ↔
      ((phaseYRaw d).all (fun o => o.isNone) = true ∨ phaseTop d = none))
    ∧ (∀ t, phaseTop d = some t →
        ¬ (phaseYRaw d).all (fun o => o.isNone) = true →
        detect_phases d = Except.ok
          ⟨⟨phaseAddress d t, "Setup position, club grounded behind ball"⟩,
           ⟨t, "Top of backswing, hands at highest point"⟩,
           ⟨(phaseImpactRes d t).getD 0, "Club at ball, hands returning to address height"⟩,
           ⟨(match phaseImpactRes d t with
              | some im => phaseFTRes d im
              | none => none).getD 0, "Full extension post-impact, arms high"⟩⟩)
    ∧ (∀ p, detect_phases d = Except.ok p →
        (phaseImpactRes d p.top.frame = none →
          p.impact.frame = 0 ∧ p.follow_through.frame = 0)
        ∧ (∀ i, phaseImpactRes d p.top.frame = some i → phaseFTRes d i = none →
            p.follow_through.frame = 0)) := by
  refine ⟨?_, ?_, ?_⟩
  · unfold detect_phases
    by_cases hall : (phaseYRaw d).all (fun o => o.isNone) = true
    · simp [hall]
    · cases htop : phaseTop d with
      | none => simp [hall, htop]
      | some t => simp [hall, htop]
  · intro t ht hna
    unfold detect_phases
    rw [if_neg hna, ht]
  · intro p hp
    unfold detect_phases at hp
    split at hp
    · simp at hp
    · cases htop : phaseTop d with
      | none => rw [htop] at hp; simp at hp
      | some t =>
        rw [htop] at hp
        simp only [Except.ok.injEq] at hp
        subst hp
        constructor
        · intro hnone
          have hnone2 : phaseImpactRes d t = none := hnone
          constructor
          · show (phaseImpactRes d t).getD 0 = 0
            rw [hnone2]
            rfl
          · show (match phaseImpactRes d t with
              | some im => phaseFTRes d im
              | none => none).getD 0 = 0
            rw [hnone2]
            rfl
        · intro i hi hft
          have hi2 : phaseImpactRes d t = some i := hi
          show (match phaseImpactRes d t with
            | some im => phaseFTRes d im
            | none => none).getD 0 = 0
          rw [hi2]
          show (phaseFTRes d i).getD 0 = 0
          rw [hft]
          rfl

/-- Witness: on the concrete 0.5-fps clip dC7 the signal is valid and a
top is found, impact is not found, and the theorem yields the complete
result with both sentinels 0. -/
theorem c7_graceful_degradation_witness :
    phaseTop dC7 = some 0
    ∧ ¬ (phaseYRaw dC7).all (fun o => o.isNone) = true
    ∧ phaseImpactRes dC7 0 = none
    ∧ detect_phases dC7 = Except.ok pC7
    ∧ pC7.impact.frame = 0 ∧ pC7.follow_through.frame = 0 := by
  refine ⟨by decide, by decide, by decide, ?_, ?_, ?_⟩
  · exact ((c7_graceful_degradation dC7).2.1 0 (by decide) (by decide)).trans (by rfl)
  · exact (((c7_graceful_degradation dC7).2.2 pC7 (by rfl)).1 (by decide)).1
  · exact (((c7_graceful_degradation dC7).2.2 pC7 (by rfl)).1 (by decide)).2

/-- C8: the wrapper snap moves a phase frame that is not in the detected
set (if that set is nonempty) to a detected frame at minimal absolute
distance; frames already detected, and the empty set, are left alone.  The
minimum is Python's min over a set, so among equidistant detected frames
the one coming FIRST IN THE SET ITERATION ORDER wins — for small
nonnegative ints CPython iterates hash-slot order, which is not generally
the lower index, refuting the tie-break direction of the spec (see the
counterexample, and the repository's own test, which only asserts
membership in \x7b24, 26\x7d for the equidistant case). -/
theorem c8_snap_nearest (l : List ℕ) (p : PhaseInfo) :
    (∀ ps : PhaseSet, snap_phases l ps =
      ⟨snapPhase l ps.address, snapPhase l ps.top,
       snapPhase l ps.impact, snapPhase l ps.follow_through⟩)
    ∧ (p.frame ∈ l ∨ l = [] → snapPhase l p = p)
    ∧ (p.frame ∉ l → l ≠ [] →
        (snapPhase l p).frame ∈ l
        ∧ (∀ f ∈ l,
            max ((snapPhase l p).frame - p.frame) (p.frame - (snapPhase l p).frame)
              ≤ max (f - p.frame) (p.frame - f))
        ∧ l.find? (fun f => decide (max (f - p.frame) (p.frame - f)
              ≤ max ((snapPhase l p).frame - p.frame) (p.frame - (snapPhase l p).frame)))
            = some (snapPhase l p).frame) := by
  refine ⟨fun ps => rfl, ?_, ?_⟩
  · intro h
    unfold snapPhase
    rcases h with h | h
    · rw [if_pos (Or.inl h)]
    · rw [if_pos (Or.inr (by simp [h]))]
  · intro hmem hne
    have hcond : ¬ (p.frame ∈ l ∨ l.isEmpty = true) := by
      rintro (h | h)
      · exact hmem h
      · exact hne (List.isEmpty_iff.mp h)
    have hsnap : snapPhase l p = ⟨snapFrame l p.frame, p.description⟩ := by
      unfold snapPhase
      rw [if_neg hcond]
    rw [hsnap]
    exact pyMinByNat_spec l (fun f => max (f - p.frame) (p.frame - f)) hne

/-- Witness: with detected iteration order [10, 3] and a phase at frame 5,
the snap lands on 3 (the unique nearest); a phase already at 10 is left
unchanged. -/
theorem c8_snap_nearest_witness :
    (snapPhase [10, 3] ⟨5, "Impact"⟩).frame ∈ [10, 3]
    ∧ (∀ f ∈ [10, 3],
        max ((snapPhase [10, 3] ⟨5, "Impact"⟩).frame - 5)
            (5 - (snapPhase [10, 3] ⟨5, "Impact"⟩).frame)
          ≤ max (f - 5) (5 - f))
    ∧ snapPhase [10, 3] ⟨10, "Impact"⟩ = ⟨10, "Impact"⟩ := by
  refine ⟨?_, ?_, ?_⟩
  · exact ((c8_snap_nearest [10, 3] ⟨5, "Impact"⟩).2.2 (by decide) (by decide)).1
  · exact ((c8_snap_nearest [10, 3] ⟨5, "Impact"⟩).2.2 (by decide) (by decide)).2.1
  · exact (c8_snap_nearest [10, 3] ⟨10, "Impact"⟩).2.1 (Or.inl (by decide))

/-- Counterexample to the spec's tie-break direction: the detected set
\x7b2, 8\x7d iterates as [8, 2] in CPython (hash(8) mod 8 = 0 comes before
hash(2) mod 8 = 2 in the hash table), so a phase at frame 5, equidistant
from 2 and 8, snaps to 8 — not to the lower index 2. -/
theorem c8_snap_nearest_counterexample :
    snapFrame [8, 2] 5 = 8
    ∧ max (8 - 5) (5 - 8) = max (2 - 5) (5 - 2)
    ∧ 2 < 8 ∧ snapFrame [8, 2] 5 ≠ 2 := by decide

end Golf
